import Mathlib

/-! BookNest: client state store (contexts/AppContext.tsx), CartPage arithmetic
and the server handlers for orders and the wishlist

Shallow embedding of the reducer-driven client store, of the cart operations
built on it, and of the Express handlers `placeOrder`, `toggleWishlist` and
`addToCart`.

Modelling decisions
* A JavaScript `number` is modelled by an exact rational `ℚ`. Prices and
  quantities are both `number` in the source, so both are `ℚ` here; the
  literals `0.1` and `1.1` are `1/10` and `11/10`. Where a statement depends on
  the rounding of binary64 arithmetic, `toDouble` supplies it.
* A JavaScript `string` is a `String`; `T | null` is `Option T`.
* `dispatch(a)` is one application of `appReducer`; a function that dispatches
  several actions applies the reducer to the successive states.
* A thrown `Error(msg)` is `Except.error msg`. A function that may throw
  returns its outcome together with the state the store is left in.
* Clock readings (`Date.now()`, `new Date()`) are explicit arguments.
-/

namespace BookNest

/-! ## Data model (AppContext.tsx, lines 3 to 59) -/

/-- Catalogue entry, `interface Book`. -/
structure Book where
  id : String
  title : String
  author : String
  genre : String
  price : ℚ
  description : String
  image : String
  rating : ℚ
  reviews : ℚ
  isbn : String
  publishedYear : ℚ
  pages : ℚ
  publisher : String
  language : String
  inStock : Bool
  featured : Bool
  deriving DecidableEq, Repr

/-- The union type `'admin' | 'user'`. -/
inductive Role where
  | admin
  | user
  deriving DecidableEq, Repr

/-- Account record, `interface User`. -/
structure User where
  id : String
  name : String
  email : String
  role : Role
  avatar : Option String
  joinDate : String
  totalOrders : ℚ
  totalSpent : ℚ
  deriving DecidableEq, Repr

/-- Cart line, `interface CartItem`. -/
structure CartItem where
  book : Book
  quantity : ℚ
  deriving DecidableEq, Repr

/-- The union type of `Order['status']`. -/
inductive OrderStatus where
  | pending
  | confirmed
  | shipped
  | delivered
  | cancelled
  deriving DecidableEq, Repr

/-- Placed order, `interface Order`. -/
structure Order where
  id : String
  userId : String
  userName : String
  userEmail : String
  items : List CartItem
  total : ℚ
  status : OrderStatus
  orderDate : String
  shippingAddress : String
  paymentMethod : String
  deriving DecidableEq, Repr

/-- Whole client store, `interface AppState`. -/
structure AppState where
  user : Option User
  books : List Book
  cart : List CartItem
  orders : List Order
  users : List User
  wishlist : List String
  isLoading : Bool
  darkMode : Bool
  deriving DecidableEq, Repr

/-- Reducer actions, `type AppAction`. -/
inductive AppAction where
  | SET_USER (payload : Option User)
  | SET_BOOKS (payload : List Book)
  | ADD_TO_CART (payload : Book)
  | REMOVE_FROM_CART (payload : String)
  | UPDATE_CART_QUANTITY (bookId : String) (quantity : ℚ)
  | CLEAR_CART
  | ADD_ORDER (payload : Order)
  | UPDATE_ORDER_STATUS (orderId : String) (status : OrderStatus)
  | ADD_TO_WISHLIST (payload : String)
  | REMOVE_FROM_WISHLIST (payload : String)
  | SET_LOADING (payload : Bool)
  | TOGGLE_DARK_MODE
  | SET_USERS (payload : List User)
  | UPDATE_USER (payload : User)
  | SET_WISHLIST (payload : List String)
  | SET_ORDERS (payload : List Order)

/-- The store before anything is loaded, `initialState`. -/
def initialState : AppState :=
  { user := none, books := [], cart := [], orders := [], users := [],
    wishlist := [], isLoading := false, darkMode := false }

/-! ## The reducer (AppContext.tsx, lines 90 to 158) -/

/-- The function `appReducer(state, action)`. -/
def appReducer (state : AppState) (action : AppAction) : AppState :=
  match action with
  | .SET_USER payload => { state with user := payload }
  | .SET_BOOKS payload => { state with books := payload }
  | .ADD_TO_CART payload =>
    match state.cart.find? (fun item => item.book.id == payload.id) with
    | some _ =>
      { state with
        cart := state.cart.map (fun item =>
          if item.book.id = payload.id
          then { item with quantity := item.quantity + 1 }
          else item) }
    | none => { state with cart := state.cart ++ [{ book := payload, quantity := 1 }] }
  | .REMOVE_FROM_CART payload =>
    { state with cart := state.cart.filter (fun item => item.book.id != payload) }
  | .UPDATE_CART_QUANTITY bookId quantity =>
    { state with
      cart := state.cart.map (fun item =>
        if item.book.id = bookId
        then { item with quantity := quantity }
        else item) }
  | .CLEAR_CART => { state with cart := [] }
  | .ADD_ORDER payload => { state with orders := state.orders ++ [payload] }
  | .UPDATE_ORDER_STATUS orderId status =>
    { state with
      orders := state.orders.map (fun order =>
        if order.id = orderId
        then { order with status := status }
        else order) }
  | .ADD_TO_WISHLIST payload => { state with wishlist := state.wishlist ++ [payload] }
  | .REMOVE_FROM_WISHLIST payload =>
    { state with wishlist := state.wishlist.filter (fun id => id != payload) }
  | .SET_LOADING payload => { state with isLoading := payload }
  | .TOGGLE_DARK_MODE => { state with darkMode := !state.darkMode }
  | .SET_USERS payload => { state with users := payload }
  | .UPDATE_USER payload =>
    { state with
      users := state.users.map (fun user => if user.id = payload.id then payload else user)
      user :=
        match state.user with
        | some u => if u.id = payload.id then some payload else state.user
        | none => state.user }
  | .SET_WISHLIST payload => { state with wishlist := payload }
  | .SET_ORDERS payload => { state with orders := payload }

/-! ## Store operations (AppContext.tsx, lines 725 to 795) -/

/-- The operation `addToCart(book)`: one `ADD_TO_CART` dispatch. -/
def addToCart (state : AppState) (book : Book) : AppState :=
  appReducer state (.ADD_TO_CART book)

/-- The operation `removeFromCart(bookId)`: one `REMOVE_FROM_CART` dispatch. -/
def removeFromCart (state : AppState) (bookId : String) : AppState :=
  appReducer state (.REMOVE_FROM_CART bookId)

/-- The operation `updateCartQuantity(bookId, quantity)`. -/
def updateCartQuantity (state : AppState) (bookId : String) (quantity : ℚ) : AppState :=
  if quantity ≤ 0 then
    removeFromCart state bookId
  else
    appReducer state (.UPDATE_CART_QUANTITY bookId quantity)

/-- The operation `clearCart()`: one `CLEAR_CART` dispatch. -/
def clearCart (state : AppState) : AppState :=
  appReducer state .CLEAR_CART

/-- The selector `getCartTotal()`: a left fold of `price * quantity` from 0, in
exact arithmetic. `getCartTotalDouble` below is the same fold with the binary64
rounding of JavaScript numbers. -/
def getCartTotal (state : AppState) : ℚ :=
  state.cart.foldl (fun total item => total + item.book.price * item.quantity) 0

/-- The selector `getCartItemsCount()`: a left fold of the quantities from 0. -/
def getCartItemsCount (state : AppState) : ℚ :=
  state.cart.foldl (fun count item => count + item.quantity) 0

/-- The two clock readings `createOrder` takes: `Date.now()` in milliseconds and
the date part of `new Date().toISOString()`. -/
structure Clock where
  now : Nat
  isoDate : String
  deriving DecidableEq, Repr

/-- The operation `createOrder(shippingAddress, paymentMethod)`. The first
component is what the call returns (the order id) or throws; the second is the
store after the call. -/
def createOrder (state : AppState) (clock : Clock) (shippingAddress paymentMethod : String) :
    Except String String × AppState :=
  match state.user with
  | none => (.error "Invalid order data", state)
  | some user =>
    if state.cart.length = 0 then
      (.error "Invalid order data", state)
    else
      let orderId := "order-" ++ toString clock.now
      let order : Order :=
        { id := orderId
          userId := user.id
          userName := user.name
          userEmail := user.email
          items := state.cart
          total := getCartTotal state
          status := .pending
          orderDate := clock.isoDate
          shippingAddress := shippingAddress
          paymentMethod := paymentMethod }
      let state1 := appReducer state (.ADD_ORDER order)
      let state2 := appReducer state1 .CLEAR_CART
      (.ok orderId, state2)

/-- The operation `logout()`: three dispatches. The two `localStorage.removeItem`
calls do not touch the store. -/
def logout (state : AppState) : AppState :=
  let state1 := appReducer state (.SET_USER none)
  let state2 := appReducer state1 .CLEAR_CART
  appReducer state2 (.SET_ORDERS [])

/-- What local storage holds under the four booknest keys when the page loads,
already parsed; `none` is a key with no value. -/
structure Persisted where
  savedUser : Option (Option User)
  savedCart : Option (List CartItem)
  savedWishlist : Option (List String)
  savedDarkMode : Option Bool
  deriving DecidableEq, Repr

/-- The body of `cart.forEach` in `loadPersistedData` (lines 222 to 227). -/
def restoreCartItem (state : AppState) (item : CartItem) : AppState :=
  let state1 := appReducer state (.ADD_TO_CART item.book)
  if item.quantity > 1 then
    appReducer state1 (.UPDATE_CART_QUANTITY item.book.id item.quantity)
  else
    state1

/-- The function `loadPersistedData()` (lines 208 to 245), for stored values
that parse. -/
def loadPersistedData (state : AppState) (saved : Persisted) : AppState :=
  let state1 :=
    match saved.savedUser with
    | some user => appReducer state (.SET_USER user)
    | none => state
  let state2 :=
    match saved.savedCart with
    | some cart => cart.foldl restoreCartItem state1
    | none => state1
  let state3 :=
    match saved.savedWishlist with
    | some wishlist =>
      wishlist.foldl (fun st bookId => appReducer st (.ADD_TO_WISHLIST bookId)) state2
    | none => state2
  match saved.savedDarkMode with
  | some true => appReducer state3 .TOGGLE_DARK_MODE
  | _ => state3

/-- A store the application can hold: one obtained from `initialState` by
dispatching a sequence of actions. The store starts as `initialState` and
changes through `dispatch` only. -/
def Reachable (state : AppState) : Prop :=
  ∃ actions : List AppAction, state = actions.foldl appReducer initialState

/-! ## JavaScript number arithmetic

The selectors above compute on exact rationals. A JavaScript `number` is an
IEEE 754 binary64 value and every `+` and `*` rounds its exact result to the
nearest such value, ties to even. The definitions below add that rounding, for
the statements that depend on it. -/

/-- Rounding to the nearest integer, a tie going to the even neighbour. -/
def roundHalfEven (y : ℚ) : ℤ :=
  if y - Int.floor y < 1 / 2 then Int.floor y
  else if 1 / 2 < y - Int.floor y then Int.floor y + 1
  else if Int.floor y % 2 = 0 then Int.floor y
  else Int.floor y + 1

/-- The binary64 value nearest to `x`. For `x` with `2 ^ k ≤ |x| < 2 ^ (k + 1)`
the binary64 values are the whole multiples of `2 ^ (k - 52)`. Overflow and the
subnormal range are left out: they are far from the amounts a cart holds. -/
def toDouble (x : ℚ) : ℚ :=
  if x = 0 then 0
  else (roundHalfEven (x / 2 ^ (Int.log 2 |x| - 52)) : ℚ) * 2 ^ (Int.log 2 |x| - 52)

/-- The selector `getCartTotal()` as the JavaScript engine evaluates it: the
product and the sum of every `reduce` step are rounded to a binary64 value. -/
def getCartTotalDouble (state : AppState) : ℚ :=
  state.cart.foldl
    (fun total item => toDouble (total + toDouble (item.book.price * item.quantity))) 0

/-! ## CartPage.tsx and OrdersPage.tsx -/

namespace CartPage

/-- The constant `cartTotal` of CartPage (line 30). -/
def cartTotal (state : AppState) : ℚ :=
  state.cart.foldl (fun total item => total + item.book.price * item.quantity) 0

/-- The constant `cartItemsCount` of CartPage (line 31). -/
def cartItemsCount (state : AppState) : ℚ :=
  state.cart.foldl (fun count item => count + item.quantity) 0

/-- The amount on the Tax line, `cartTotal * 0.1` (line 185). -/
def taxShown (state : AppState) : ℚ :=
  cartTotal state * (1 / 10)

/-- The amount on the Total line and on the Checkout button, `cartTotal * 1.1`
(lines 190 and 239). -/
def totalShown (state : AppState) : ℚ :=
  cartTotal state * (11 / 10)

/-- The handler `handleQuantityChange(bookId, newQuantity)` behind the plus and
minus buttons. -/
def handleQuantityChange (state : AppState) (bookId : String) (newQuantity : ℚ) : AppState :=
  if newQuantity < 1 then
    removeFromCart state bookId
  else
    updateCartQuantity state bookId newQuantity

end CartPage

namespace OrdersPage

/-- The amount on the Subtotal line of an order, `order.total / 1.1` (line 155). -/
def subtotalShown (order : Order) : ℚ :=
  order.total / (11 / 10)

/-- The amount on the Tax line of an order, `order.total * 0.1 / 1.1` (line 159). -/
def taxShown (order : Order) : ℚ :=
  order.total * (1 / 10) / (11 / 10)

/-- The amount on the Total line of an order, `order.total` (line 167). -/
def totalShown (order : Order) : ℚ :=
  order.total

end OrdersPage

/-! ## Server handlers (booknest-backend/controllers)

A handler is a function of the documents its queries return and of the request
body; it returns the response and the documents as they are after the call.
Persistence calls are taken to succeed, so the `catch` branch that answers 500
is not part of the embedding. -/

namespace Server

/-- What a stored cart item holds in `book`: the ObjectId of the referenced
Book document, read by the handlers through `item.book.toString()`. None of the
handlers embedded here calls `populate`, so the reference is never replaced by
the Book document. -/
structure BookRef where
  id : String
  deriving DecidableEq, Repr

/-- The read `item.book.price` on such a reference: an ObjectId has no `price`
property, so the read gives `undefined`, here `none`. -/
def BookRef.price (_ : BookRef) : Option ℚ :=
  none

/-- Modelled from the spec: models/Book.js is not among the sources. The part
of a Book document that an order total needs: its id and its price, which the
document may lack. -/
structure BookDoc where
  id : String
  price : Option ℚ
  deriving DecidableEq, Repr

/-- Modelled from the spec: models/Cart.js is not among the sources. One entry
of a cart document: a book reference and a quantity. -/
structure CartLine where
  book : BookRef
  quantity : ℚ
  deriving DecidableEq, Repr

/-- Modelled from the spec: models/Cart.js is not among the sources. The cart
document: its owner and the ordered sequence of its entries. -/
structure Cart where
  user : String
  items : List CartLine
  deriving DecidableEq, Repr

/-- The `status` enumeration of models/Order.js. -/
inductive Status where
  | pending
  | completed
  | cancelled
  deriving DecidableEq, Repr

/-- The order document of models/Order.js (timestamps left out). -/
structure Order where
  user : String
  items : List CartLine
  total : ℚ
  status : Status
  deriving DecidableEq, Repr

/-- Modelled from the spec: models/User.js is not among the sources. The part
of the user document that `toggleWishlist` touches: the wishlist is the array
of book ids it searches, splices and pushes to. -/
structure UserDoc where
  id : String
  wishlist : List String
  deriving DecidableEq, Repr

/-- The JSON payload of a response. -/
inductive Body where
  | message (text : String)
  | order (order : Order)
  | cart (cart : Cart)
  | wishlist (ids : List String)
  deriving DecidableEq, Repr

/-- An HTTP response: status code and payload. -/
structure Response where
  status : Nat
  body : Body
  deriving DecidableEq, Repr

/-- The documents an order request of one user touches: the cart that
`Cart.findOne` returns for `req.user.id` (`none` for `null`) and the Order
collection. -/
structure Store where
  cart : Option Cart
  orders : List Order
  deriving DecidableEq, Repr

/-- The array method `findIndex`: the index of the first element the callback
accepts, and -1 when it accepts none. -/
def findIndex {α : Type} (p : α → Bool) : List α → Int
  | [] => -1
  | x :: xs =>
    if p x then 0
    else
      let i := findIndex p xs
      if i > -1 then i + 1 else -1

/-- Lines 17 to 22 of `toggleWishlist`: the wishlist after the toggle. -/
def toggledWishlist (wishlist : List String) (bookId : String) : List String :=
  let index := findIndex (fun id => id == bookId) wishlist
  if index > -1 then
    wishlist.eraseIdx index.toNat
  else
    wishlist ++ [bookId]

/-- The handler `toggleWishlist` of userController.js, given the document that
`User.findById(req.user.id)` returns and `req.body.bookId`. The response
carries the ids of the saved wishlist. -/
def toggleWishlist (user : Option UserDoc) (bookId : String) : Response × Option UserDoc :=
  match user with
  | none => ({ status := 404, body := .message "User not found" }, none)
  | some user =>
    let saved : UserDoc := { user with wishlist := toggledWishlist user.wishlist bookId }
    ({ status := 200, body := .wishlist saved.wishlist }, some saved)

/-- The handler `placeOrder` of orderController.js for the user `userId`
(`req.user.id`). -/
def placeOrder (store : Store) (userId : String) : Response × Store :=
  match store.cart with
  | none => ({ status := 400, body := .message "Cart is empty" }, store)
  | some cart =>
    if cart.items.length = 0 then
      ({ status := 400, body := .message "Cart is empty" }, store)
    else
      let total := cart.items.foldl
        (fun sum item => sum + item.quantity * (item.book.price.getD 0)) 0
      let order : Order :=
        { user := userId, items := cart.items, total := total, status := .pending }
      ({ status := 201, body := .order order },
        { cart := some { cart with items := [] }, orders := store.orders ++ [order] })

/-- The order total as the specification words it: the sum over the items of
price times quantity, the price of an item being the price of the Book
document its reference names, and an item whose book carries no price
counting 0. -/
def specTotal (books : List BookDoc) (items : List CartLine) : ℚ :=
  (items.map (fun item =>
    match books.find? (fun book => book.id == item.book.id) with
    | some book => book.price.getD 0 * item.quantity
    | none => 0)).sum

/-- The persistence call a cart handler makes: `Cart.create(...)` inserts a new
cart document, `cart.save()` writes back the document that was found. -/
inductive CartWrite where
  | create (cart : Cart)
  | save (cart : Cart)
  deriving DecidableEq, Repr

/-- The assignment `items[index].quantity += quantity`. -/
def addQuantityAt : List CartLine → Nat → ℚ → List CartLine
  | [], _, _ => []
  | item :: rest, 0, quantity => { item with quantity := item.quantity + quantity } :: rest
  | item :: rest, index + 1, quantity => item :: addQuantityAt rest index quantity

/-- Lines 20 to 25 of `addToCart`: the items of a found cart after the request. -/
def addedItems (items : List CartLine) (bookId : String) (quantity : ℚ) : List CartLine :=
  let itemIndex := findIndex (fun item => item.book.id == bookId) items
  if itemIndex > -1 then
    addQuantityAt items itemIndex.toNat quantity
  else
    items ++ [{ book := { id := bookId }, quantity := quantity }]

/-- The handler `addToCart` of cartController.js for the user `userId`
(`req.user.id`), given the document that `Cart.findOne` returns and the request
body. It answers with the cart and makes exactly one persistence call. -/
def addToCart (found : Option Cart) (userId bookId : String) (quantity : ℚ) :
    Response × CartWrite :=
  match found with
  | none =>
    let cart : Cart :=
      { user := userId
        items := [{ book := { id := bookId }, quantity := quantity }] }
    ({ status := 200, body := .cart cart }, .create cart)
  | some cart =>
    let saved : Cart := { cart with items := addedItems cart.items bookId quantity }
    ({ status := 200, body := .cart saved }, .save saved)

end Server

/-! ## Concrete data used in the examples -/

/-- A book with the given id and price, the other attributes left blank. -/
def sampleBook (id : String) (price : ℚ) : Book :=
  { id := id, title := "", author := "", genre := "", price := price, description := "",
    image := "", rating := 0, reviews := 0, isbn := "", publishedYear := 0, pages := 0,
    publisher := "", language := "", inStock := true, featured := false }

/-- A signed-in ordinary user. -/
def sampleUser : User :=
  { id := "u1", name := "Reader", email := "reader@example.com", role := .user,
    avatar := none, joinDate := "2024-01-01", totalOrders := 0, totalSpent := 0 }

/-- A store holding only the given user and cart. -/
def stateWith (user : Option User) (cart : List CartItem) : AppState :=
  { initialState with user := user, cart := cart }

/-- A clock reading. -/
def sampleClock : Clock :=
  { now := 1700000000000, isoDate := "2023-11-14" }

/-- The cart of the worked example: one book at 12.99 and two at 14.99. -/
def exampleCart : List CartItem :=
  [⟨sampleBook "b1" (1299 / 100), 1⟩, ⟨sampleBook "b2" (1499 / 100), 2⟩]

/-- Three `ADD_TO_CART` dispatches: one copy of b1 and two of b2. -/
def reachedActions : List AppAction :=
  [.ADD_TO_CART (sampleBook "b1" (1299 / 100)), .ADD_TO_CART (sampleBook "b2" (1499 / 100)),
    .ADD_TO_CART (sampleBook "b2" (1499 / 100))]

/-- The store reached from the initial state by `reachedActions`. -/
def reachedState : AppState :=
  reachedActions.foldl appReducer initialState

/-- The Book collection of the example: b1 at 12.99 and b2 at 14.99. -/
def Server.exampleBooks : List Server.BookDoc :=
  [⟨"b1", some (1299 / 100)⟩, ⟨"b2", some (1499 / 100)⟩]

/-- A stored cart: one copy of b1 and two copies of b2. -/
def Server.exampleCart : Server.Cart :=
  { user := "u1", items := [⟨⟨"b1"⟩, 1⟩, ⟨⟨"b2"⟩, 2⟩] }

/-- The store after a first order at `sampleClock` and a further `addToCart`. -/
def afterFirstOrder : AppState :=
  addToCart
    (createOrder (stateWith (some sampleUser) exampleCart) sampleClock "1 Main St" "paypal").2
    (sampleBook "b3" 5)

/-- A store holding one order and the example cart. -/
def stateWithOrder : AppState :=
  { stateWith (some sampleUser) exampleCart with
    orders :=
      [{ id := "order-1", userId := "u1", userName := "Reader",
         userEmail := "reader@example.com", items := exampleCart, total := 4297 / 100,
         status := .pending, orderDate := "2023-11-14", shippingAddress := "1 Main St",
         paymentMethod := "paypal" }] }

/-- Local storage that holds the example cart and nothing else. -/
def savedExample : Persisted :=
  { savedUser := none, savedCart := some exampleCart, savedWishlist := none,
    savedDarkMode := none }

/-- A cart with a single copy of one book. -/
def singleCart : List CartItem :=
  [⟨sampleBook "b1" 10, 1⟩]

/-- A server cart holding one copy of the book b1. -/
def Server.singleCart : Server.Cart :=
  { user := "u1", items := [⟨⟨"b1"⟩, 1⟩] }

/-- A cart from the catalogue: two copies of a book at 11.99 and one copy of a
book at 13.50, the prices being the binary64 values of those literals. -/
def doubleCart : List CartItem :=
  [⟨sampleBook "b1" (toDouble (1199 / 100)), 2⟩, ⟨sampleBook "b2" (toDouble (27 / 2)), 1⟩]

/-! ## Shared lemmas -/

theorem foldl_add_eq_sum (f : CartItem → ℚ) (l : List CartItem) (a : ℚ) :
    l.foldl (fun acc item => acc + f item) a = a + (l.map f).sum := by
  induction l generalizing a with
  | nil => simp
  | cons x xs ih => simp [ih, add_assoc]

theorem find?_eq_none_of_absent (cart : List CartItem) (bookId : String)
    (h : ∀ item ∈ cart, item.book.id ≠ bookId) :
    cart.find? (fun item => item.book.id == bookId) = none := by
  simp only [List.find?_eq_none]
  intro x hx
  simpa using h x hx

theorem find?_isSome_of_present (cart : List CartItem) (bookId : String)
    (h : ∃ item ∈ cart, item.book.id = bookId) :
    ∃ found, cart.find? (fun item => item.book.id == bookId) = some found := by
  cases hf : cart.find? (fun item => item.book.id == bookId) with
  | some found => exact ⟨found, rfl⟩
  | none =>
    exfalso
    obtain ⟨item, hmem, hid⟩ := h
    rw [List.find?_eq_none] at hf
    have := hf item hmem
    simp [hid] at this

theorem createOrder_ok (s : AppState) (clock : Clock) (addr pay : String) (u : User)
    (hu : s.user = some u) (hc : s.cart ≠ []) :
    createOrder s clock addr pay =
      (.ok ("order-" ++ toString clock.now),
        { s with
          orders := s.orders ++
            [{ id := "order-" ++ toString clock.now, userId := u.id, userName := u.name,
               userEmail := u.email, items := s.cart, total := getCartTotal s,
               status := .pending, orderDate := clock.isoDate, shippingAddress := addr,
               paymentMethod := pay }]
          cart := [] }) := by
  have hlen : s.cart.length ≠ 0 := by
    intro h0
    exact hc (List.length_eq_zero.mp h0)
  simp [createOrder, hu, hlen, appReducer]

theorem filter_bne_eq_filter_ne (cart : List CartItem) (bookId : String) :
    cart.filter (fun item => item.book.id != bookId) =
      cart.filter (fun item => decide (item.book.id ≠ bookId)) := by
  apply List.filter_congr
  intro item _
  by_cases hid : item.book.id = bookId <;> simp [bne, hid]

theorem length_filter_ne_add_countP (cart : List CartItem) (bookId : String) :
    (cart.filter (fun item => decide (item.book.id ≠ bookId))).length +
      cart.countP (fun item => decide (item.book.id = bookId)) = cart.length := by
  induction cart with
  | nil => rfl
  | cons x xs ih =>
    by_cases hx : x.book.id = bookId
    · simp [hx] at ih ⊢
      omega
    · simp [hx] at ih ⊢
      omega

theorem toggledWishlist_nil (bookId : String) :
    Server.toggledWishlist [] bookId = [bookId] := by
  simp [Server.toggledWishlist, Server.findIndex]

theorem findIndex_ge (p : String → Bool) (l : List String) : -1 ≤ Server.findIndex p l := by
  induction l with
  | nil => simp [Server.findIndex]
  | cons x xs ih =>
    simp only [Server.findIndex]
    split
    · omega
    · split <;> omega

theorem toggledWishlist_cons (x : String) (xs : List String) (bookId : String) :
    Server.toggledWishlist (x :: xs) bookId =
      if x = bookId then xs else x :: Server.toggledWishlist xs bookId := by
  by_cases hx : x = bookId
  · simp [Server.toggledWishlist, Server.findIndex, hx]
  · have hge := findIndex_ge (fun id => id == bookId) xs
    by_cases hi : Server.findIndex (fun id => id == bookId) xs > -1
    · have hnat : (Server.findIndex (fun id => id == bookId) xs + 1).toNat =
          (Server.findIndex (fun id => id == bookId) xs).toNat + 1 := by omega
      have hpos : Server.findIndex (fun id => id == bookId) xs + 1 > -1 := by omega
      simp [Server.toggledWishlist, Server.findIndex, hx, hi, hnat, hpos]
    · simp [Server.toggledWishlist, Server.findIndex, hx, hi]

theorem count_toggledWishlist_self (w : List String) (bookId : String) :
    (Server.toggledWishlist w bookId).count bookId =
      if bookId ∈ w then w.count bookId - 1 else 1 := by
  induction w with
  | nil => simp [toggledWishlist_nil]
  | cons x xs ih =>
    rw [toggledWishlist_cons]
    by_cases hx : x = bookId
    · subst hx
      simp
    · have hx2 : ¬ bookId = x := fun h => hx h.symm
      simp [hx, hx2, List.count_cons, ih]

theorem count_toggledWishlist_other (w : List String) (bookId other : String)
    (hne : other ≠ bookId) :
    (Server.toggledWishlist w bookId).count other = w.count other := by
  induction w with
  | nil => simp [toggledWishlist_nil, List.count_cons, hne.symm]
  | cons x xs ih =>
    rw [toggledWishlist_cons]
    by_cases hx : x = bookId
    · subst hx
      simp [List.count_cons, hne.symm]
    · simp [hx, List.count_cons, ih]

theorem foldl_add_eq_add_sum {α : Type} (f : α → ℚ) (l : List α) (a : ℚ) :
    l.foldl (fun acc x => acc + f x) a = a + (l.map f).sum := by
  induction l generalizing a with
  | nil => simp
  | cons x xs ih => simp [ih, add_assoc]

theorem digitChar_value (d : Nat) (hd : d < 10) : (Nat.digitChar d).toNat - 48 = d := by
  interval_cases d <;> rfl

theorem toDigitsCore_read (fuel : Nat) :
    ∀ (n : Nat) (ds : List Char), n < fuel →
      (Nat.toDigitsCore 10 fuel n ds).foldl (fun acc c => 10 * acc + (c.toNat - 48)) 0 =
        ds.foldl (fun acc c => 10 * acc + (c.toNat - 48)) n := by
  induction fuel with
  | zero => intro n ds h; omega
  | succ fuel ih =>
    intro n ds h
    have hd : (Nat.digitChar (n % 10)).toNat - 48 = n % 10 :=
      digitChar_value (n % 10) (Nat.mod_lt n (by norm_num))
    by_cases h0 : n / 10 = 0
    · have hn : n % 10 = n := by omega
      rw [hn] at hd
      simp [Nat.toDigitsCore, h0, hd, hn]
    · have hlt : n / 10 < fuel := by omega
      have hn : 10 * (n / 10) + n % 10 = n := by omega
      simp [Nat.toDigitsCore, h0, ih (n / 10) _ hlt, hd, hn]

theorem nat_toString_injective (n m : Nat) (h : toString n = toString m) : n = m := by
  have hdata : Nat.toDigits 10 n = Nat.toDigits 10 m := by
    have h2 : (Nat.toDigits 10 n).asString = (Nat.toDigits 10 m).asString := h
    simpa [List.asString] using congrArg String.data h2
  have hn := toDigitsCore_read (n + 1) n [] (by omega)
  have hm := toDigitsCore_read (m + 1) m [] (by omega)
  simp only [List.foldl_nil] at hn hm
  rw [← hn, ← hm]
  exact congrArg (fun ds => List.foldl (fun acc c => 10 * acc + (c.toNat - 48)) 0 ds) hdata

theorem orderId_injective (n m : Nat)
    (h : "order-" ++ toString n = "order-" ++ toString m) : n = m := by
  apply nat_toString_injective
  have hdata := congrArg String.data h
  simp only [String.data_append] at hdata
  exact String.ext (List.append_cancel_left hdata)

theorem map_set_quantity_ids (cart : List CartItem) (bookId : String) (f : CartItem → ℚ) :
    (cart.map (fun item =>
        if item.book.id = bookId then { item with quantity := f item } else item)).map
      (fun item => item.book.id) = cart.map (fun item => item.book.id) := by
  rw [List.map_map]
  apply List.map_congr_left
  intro item _
  by_cases hid : item.book.id = bookId <;> simp [hid]

theorem appReducer_cart_ids_nodup (s : AppState) (action : AppAction)
    (h : (s.cart.map (fun item => item.book.id)).Nodup) :
    ((appReducer s action).cart.map (fun item => item.book.id)).Nodup := by
  cases action with
  | ADD_TO_CART book =>
    cases hf : s.cart.find? (fun item => item.book.id == book.id) with
    | some found =>
      have hcart : (appReducer s (.ADD_TO_CART book)).cart = s.cart.map (fun item =>
          if item.book.id = book.id then { item with quantity := item.quantity + 1 }
          else item) := by
        simp [appReducer, hf]
      rw [hcart, map_set_quantity_ids s.cart book.id (fun item => item.quantity + 1)]
      exact h
    | none =>
      have hcart : (appReducer s (.ADD_TO_CART book)).cart =
          s.cart ++ [{ book := book, quantity := 1 }] := by
        simp [appReducer, hf]
      rw [hcart, List.map_append, List.nodup_append]
      refine ⟨h, by simp, ?_⟩
      intro id hleft hright
      simp only [List.map_cons, List.map_nil, List.mem_singleton] at hright
      rw [List.mem_map] at hleft
      obtain ⟨item, hmem, hid⟩ := hleft
      rw [List.find?_eq_none] at hf
      have := hf item hmem
      simp [hid, hright] at this
  | REMOVE_FROM_CART id =>
    exact List.Nodup.sublist (List.Sublist.map _ (List.filter_sublist s.cart)) h
  | UPDATE_CART_QUANTITY id q =>
    have hcart : (appReducer s (.UPDATE_CART_QUANTITY id q)).cart = s.cart.map (fun item =>
        if item.book.id = id then { item with quantity := q } else item) := rfl
    rw [hcart, map_set_quantity_ids s.cart id (fun _ => q)]
    exact h
  | CLEAR_CART => exact List.nodup_nil
  | _ => exact h

theorem map_set_quantity_of_absent (cart : List CartItem) (bookId : String) (f : CartItem → ℚ)
    (h : ∀ item ∈ cart, item.book.id ≠ bookId) :
    cart.map (fun item =>
      if item.book.id = bookId then { item with quantity := f item } else item) = cart := by
  conv_rhs => rw [← List.map_id cart]
  apply List.map_congr_left
  intro item hmem
  simp [h item hmem]

theorem restoreCartItem_cart (s : AppState) (item : CartItem)
    (hnew : ∀ x ∈ s.cart, x.book.id ≠ item.book.id) (hq : 1 ≤ item.quantity) :
    (restoreCartItem s item).cart = s.cart ++ [item] := by
  have hnone := find?_eq_none_of_absent s.cart item.book.id hnew
  have hadd : (appReducer s (.ADD_TO_CART item.book)).cart =
      s.cart ++ [{ book := item.book, quantity := 1 }] := by
    simp [appReducer, hnone]
  by_cases hgt : item.quantity > 1
  · rw [restoreCartItem, if_pos hgt]
    show (appReducer s (.ADD_TO_CART item.book)).cart.map (fun x =>
      if x.book.id = item.book.id then { x with quantity := item.quantity } else x) = _
    rw [hadd, List.map_append,
      map_set_quantity_of_absent s.cart item.book.id (fun _ => item.quantity) hnew]
    simp
  · rw [restoreCartItem, if_neg hgt, hadd]
    have hone : item.quantity = 1 := le_antisymm (not_lt.mp hgt) hq
    cases item with
    | mk book quantity =>
      simp only at hone
      rw [hone]

theorem foldl_restoreCartItem_cart (saved : List CartItem) :
    ∀ s : AppState, ((s.cart ++ saved).map (fun item => item.book.id)).Nodup →
      (∀ item ∈ saved, 1 ≤ item.quantity) →
      (saved.foldl restoreCartItem s).cart = s.cart ++ saved := by
  induction saved with
  | nil => intro s _ _; simp
  | cons item rest ih =>
    intro s hnd hq
    have hnew : ∀ x ∈ s.cart, x.book.id ≠ item.book.id := by
      intro x hx hid
      rw [List.map_append, List.nodup_append] at hnd
      exact hnd.2.2 (List.mem_map.mpr ⟨x, hx, rfl⟩)
        (List.mem_map.mpr ⟨item, List.mem_cons_self item rest, hid.symm⟩)
    have hstep := restoreCartItem_cart s item hnew (hq item (List.mem_cons_self item rest))
    have hnd2 : (((restoreCartItem s item).cart ++ rest).map (fun item => item.book.id)).Nodup := by
      rw [hstep, List.append_assoc]
      exact hnd
    have := ih (restoreCartItem s item) hnd2
      (fun x hx => hq x (List.mem_cons_of_mem item hx))
    rw [List.foldl_cons, this, hstep, List.append_assoc]
    rfl

theorem foldl_add_to_wishlist_cart (wishlist : List String) :
    ∀ s : AppState,
      (wishlist.foldl (fun st bookId => appReducer st (.ADD_TO_WISHLIST bookId)) s).cart =
        s.cart := by
  induction wishlist with
  | nil => intro s; rfl
  | cons id rest ih =>
    intro s
    rw [List.foldl_cons, ih]
    rfl

theorem sum_after_increment (w : Book → ℚ) (bookId : String) (cart : List CartItem) :
    ∀ e : CartItem, (cart.map (fun item => item.book.id)).Nodup → e ∈ cart →
      e.book.id = bookId →
      ((cart.map (fun item =>
          if item.book.id = bookId then { item with quantity := item.quantity + 1 }
          else item)).map (fun item => w item.book * item.quantity)).sum =
        (cart.map (fun item => w item.book * item.quantity)).sum + w e.book := by
  induction cart with
  | nil => intro e _ hmem; exact absurd hmem (List.not_mem_nil e)
  | cons x xs ih =>
    intro e hnd hmem hid
    rw [List.map_cons, List.nodup_cons] at hnd
    by_cases hx : x.book.id = bookId
    · have habs : ∀ item ∈ xs, item.book.id ≠ bookId := by
        intro item hitem hitemid
        exact hnd.1 (List.mem_map.mpr ⟨item, hitem, by rw [hitemid, hx]⟩)
      have hex : e = x := by
        rcases List.mem_cons.mp hmem with h1 | h1
        · exact h1
        · exact absurd hid (habs e h1)
      rw [List.map_cons, map_set_quantity_of_absent xs bookId (fun item => item.quantity + 1) habs,
        hex]
      simp only [hx, if_true, List.map_cons, List.sum_cons]
      ring
    · have hexs : e ∈ xs := by
        rcases List.mem_cons.mp hmem with h1 | h1
        · rw [h1] at hid
          exact absurd hid hx
        · exact h1
      have := ih e hnd.2 hexs hid
      simp only [List.map_cons, hx, if_false, List.sum_cons, this]
      ring

theorem countP_id_eq_one (cart : List CartItem) (item : CartItem)
    (hnd : (cart.map (fun x => x.book.id)).Nodup) (hmem : item ∈ cart) :
    cart.countP (fun x => decide (x.book.id = item.book.id)) = 1 := by
  have hin : item.book.id ∈ cart.map (fun x => x.book.id) :=
    List.mem_map.mpr ⟨item, hmem, rfl⟩
  have hcount : List.count item.book.id (cart.map (fun x => x.book.id)) = 1 :=
    List.count_eq_one_of_mem hnd hin
  rw [List.count, List.countP_map] at hcount
  rw [← hcount]
  apply List.countP_congr
  intro x _
  simp

theorem findIndex_line_ge (p : Server.CartLine → Bool) (l : List Server.CartLine) :
    -1 ≤ Server.findIndex p l := by
  induction l with
  | nil => simp [Server.findIndex]
  | cons x xs ih =>
    simp only [Server.findIndex]
    split
    · omega
    · split <;> omega

theorem addedItems_nil (bookId : String) (quantity : ℚ) :
    Server.addedItems [] bookId quantity =
      [{ book := { id := bookId }, quantity := quantity }] := by
  simp [Server.addedItems, Server.findIndex]

theorem addedItems_cons (x : Server.CartLine) (xs : List Server.CartLine) (bookId : String)
    (quantity : ℚ) :
    Server.addedItems (x :: xs) bookId quantity =
      if x.book.id = bookId then { x with quantity := x.quantity + quantity } :: xs
      else x :: Server.addedItems xs bookId quantity := by
  by_cases hx : x.book.id = bookId
  · simp [Server.addedItems, Server.findIndex, Server.addQuantityAt, hx]
  · have hge := findIndex_line_ge (fun item => item.book.id == bookId) xs
    by_cases hi : Server.findIndex (fun item => item.book.id == bookId) xs > -1
    · have hnat : (Server.findIndex (fun item => item.book.id == bookId) xs + 1).toNat =
          (Server.findIndex (fun item => item.book.id == bookId) xs).toNat + 1 := by omega
      have hpos : Server.findIndex (fun item => item.book.id == bookId) xs + 1 > -1 := by omega
      simp [Server.addedItems, Server.findIndex, Server.addQuantityAt, hx, hi, hnat, hpos]
    · simp [Server.addedItems, Server.findIndex, hx, hi]

theorem addedItems_append_of_absent (pre rest : List Server.CartLine) (bookId : String)
    (quantity : ℚ) (h : ∀ x ∈ pre, x.book.id ≠ bookId) :
    Server.addedItems (pre ++ rest) bookId quantity =
      pre ++ Server.addedItems rest bookId quantity := by
  induction pre with
  | nil => rfl
  | cons x xs ih =>
    have hx : x.book.id ≠ bookId := h x (List.mem_cons_self x xs)
    rw [List.cons_append, addedItems_cons, if_neg hx,
      ih (fun y hy => h y (List.mem_cons_of_mem x hy)), List.cons_append]

theorem addedItems_length_of_present (items : List Server.CartLine) (bookId : String)
    (quantity : ℚ) (h : ∃ item ∈ items, item.book.id = bookId) :
    (Server.addedItems items bookId quantity).length = items.length := by
  induction items with
  | nil =>
    obtain ⟨item, hmem, _⟩ := h
    exact absurd hmem (List.not_mem_nil item)
  | cons x xs ih =>
    rw [addedItems_cons]
    by_cases hx : x.book.id = bookId
    · simp [hx]
    · obtain ⟨item, hmem, hid⟩ := h
      have hrest : ∃ item ∈ xs, item.book.id = bookId := by
        rcases List.mem_cons.mp hmem with h1 | h1
        · rw [h1] at hid
          exact absurd hid hx
        · exact ⟨item, h1, hid⟩
      simp [hx, ih hrest]

theorem addedItems_quantities (items : List Server.CartLine) (bookId : String) (quantity : ℚ)
    (h : ∀ item ∈ items, 1 ≤ item.quantity)
    (hq : 1 ≤ quantity ∨ (0 ≤ quantity ∧ ∃ item ∈ items, item.book.id = bookId)) :
    ∀ item ∈ Server.addedItems items bookId quantity, 1 ≤ item.quantity := by
  induction items with
  | nil =>
    intro item hmem
    rw [addedItems_nil, List.mem_singleton] at hmem
    rcases hq with h1 | ⟨_, x, hx, _⟩
    · rw [hmem]
      exact h1
    · exact absurd hx (List.not_mem_nil x)
  | cons x xs ih =>
    intro item hmem
    have hxq : 1 ≤ x.quantity := h x (List.mem_cons_self x xs)
    have hq0 : 0 ≤ quantity := by
      rcases hq with h1 | ⟨h0, _⟩
      · linarith
      · exact h0
    rw [addedItems_cons] at hmem
    by_cases hx : x.book.id = bookId
    · rw [if_pos hx] at hmem
      rcases List.mem_cons.mp hmem with h1 | h1
      · rw [h1]
        show 1 ≤ x.quantity + quantity
        linarith
      · exact h item (List.mem_cons_of_mem x h1)
    · rw [if_neg hx] at hmem
      rcases List.mem_cons.mp hmem with h1 | h1
      · rw [h1]
        exact hxq
      · have hq2 : 1 ≤ quantity ∨ (0 ≤ quantity ∧ ∃ item ∈ xs, item.book.id = bookId) := by
          rcases hq with h1q | ⟨h0, y, hy, hyid⟩
          · exact Or.inl h1q
          · rcases List.mem_cons.mp hy with h2 | h2
            · rw [h2] at hyid
              exact absurd hyid hx
            · exact Or.inr ⟨h0, y, h2, hyid⟩
        exact ih (fun y hy => h y (List.mem_cons_of_mem x hy)) hq2 item h1

theorem toggledWishlist_of_absent (w : List String) (bookId : String) (h : bookId ∉ w) :
    Server.toggledWishlist w bookId = w ++ [bookId] := by
  induction w with
  | nil => exact toggledWishlist_nil bookId
  | cons x xs ih =>
    have hx : x ≠ bookId := fun hxb => h (hxb ▸ List.mem_cons_self x xs)
    rw [toggledWishlist_cons, if_neg hx, ih (fun hm => h (List.mem_cons_of_mem x hm)),
      List.cons_append]

theorem toggledWishlist_of_present (w : List String) (bookId : String) (h : bookId ∈ w) :
    (Server.toggledWishlist w bookId).Sublist w ∧
      (Server.toggledWishlist w bookId).length + 1 = w.length := by
  induction w with
  | nil => exact absurd h (List.not_mem_nil bookId)
  | cons x xs ih =>
    rw [toggledWishlist_cons]
    by_cases hx : x = bookId
    · rw [if_pos hx]
      exact ⟨List.sublist_cons_self x xs, rfl⟩
    · rw [if_neg hx]
      have hxs : bookId ∈ xs := by
        rcases List.mem_cons.mp h with h1 | h1
        · exact absurd h1.symm hx
        · exact h1
      obtain ⟨hsub, hlen⟩ := ih hxs
      refine ⟨List.Sublist.cons₂ x hsub, ?_⟩
      simp only [List.length_cons]
      omega

theorem toggledWishlist_eq_filter (w : List String) (bookId : String) (hnd : w.Nodup)
    (h : bookId ∈ w) :
    Server.toggledWishlist w bookId = w.filter (fun id => decide (id ≠ bookId)) := by
  induction w with
  | nil => exact absurd h (List.not_mem_nil bookId)
  | cons x xs ih =>
    rw [List.nodup_cons] at hnd
    rw [toggledWishlist_cons]
    by_cases hx : x = bookId
    · rw [if_pos hx]
      have hall : ∀ y ∈ xs, decide (y ≠ bookId) = true := by
        intro y hy
        have hne : y ≠ bookId := by
          intro hyb
          exact hnd.1 (hx ▸ hyb ▸ hy)
        simpa using hne
      rw [List.filter_cons_of_neg (by simpa using hx), List.filter_eq_self.mpr hall]
    · rw [if_neg hx]
      have hxs : bookId ∈ xs := by
        rcases List.mem_cons.mp h with h1 | h1
        · exact absurd h1.symm hx
        · exact h1
      rw [List.filter_cons_of_pos (by simpa using hx), ih hnd.2 hxs]

theorem foldl_appReducer_cart_ids_nodup (actions : List AppAction) :
    ∀ s : AppState, (s.cart.map (fun item => item.book.id)).Nodup →
      ((actions.foldl appReducer s).cart.map (fun item => item.book.id)).Nodup := by
  induction actions with
  | nil => intro s hs; exact hs
  | cons a rest ih =>
    intro s hs
    exact ih (appReducer s a) (appReducer_cart_ids_nodup s a hs)

theorem reachable_cart_ids_nodup (s : AppState) (hs : Reachable s) :
    (s.cart.map (fun item => item.book.id)).Nodup := by
  obtain ⟨actions, rfl⟩ := hs
  exact foldl_appReducer_cart_ids_nodup actions initialState List.nodup_nil

theorem toggledWishlist_twice_mem (w : List String) (bookId : String)
    (h : w.count bookId ≠ 2) :
    ∀ id, id ∈ Server.toggledWishlist (Server.toggledWishlist w bookId) bookId ↔ id ∈ w := by
  intro id
  rw [← List.count_pos_iff, ← List.count_pos_iff]
  by_cases hid : id = bookId
  · subst hid
    rw [count_toggledWishlist_self, count_toggledWishlist_self]
    by_cases hmem : id ∈ w
    · have hpos : 0 < w.count id := List.count_pos_iff.mpr hmem
      simp only [← List.count_pos_iff, count_toggledWishlist_self, hmem, if_true]
      split <;> omega
    · have hzero : w.count id = 0 := List.count_eq_zero.mpr hmem
      simp only [← List.count_pos_iff, count_toggledWishlist_self, hmem, if_false]
      simp [hzero]
  · rw [count_toggledWishlist_other _ _ _ hid, count_toggledWishlist_other _ _ _ hid]

theorem roundHalfEven_eq (y : ℚ) (m : ℤ) (h1 : (m : ℚ) - 1 / 2 < y) (h2 : y < m + 1 / 2) :
    roundHalfEven y = m := by
  have hf1 : (Int.floor y : ℚ) ≤ y := Int.floor_le y
  have hf2 : y < Int.floor y + 1 := Int.lt_floor_add_one y
  have hle : Int.floor y ≤ m := by
    have : (Int.floor y : ℚ) < m + 1 := by linarith
    have h3 : Int.floor y < m + 1 := by exact_mod_cast this
    omega
  have hge : m - 1 ≤ Int.floor y := by
    have : (m : ℚ) - 1 < Int.floor y + 1 := by linarith
    have h3 : m - 1 < Int.floor y + 1 := by exact_mod_cast this
    omega
  rcases (by omega : Int.floor y = m ∨ Int.floor y = m - 1) with hm | hm
  · have hlt : y - Int.floor y < 1 / 2 := by rw [hm]; linarith
    rw [roundHalfEven, if_pos hlt, hm]
  · have hcast : ((Int.floor y : ℤ) : ℚ) = (m : ℚ) - 1 := by rw [hm]; push_cast; ring
    have hnlt : ¬ (y - Int.floor y < 1 / 2) := by rw [hcast]; intro h; linarith
    have hgt : 1 / 2 < y - Int.floor y := by rw [hcast]; linarith
    rw [roundHalfEven, if_neg hnlt, if_pos hgt, hm]
    ring

theorem roundHalfEven_tie (y : ℚ) (f : ℤ) (h : y = f + 1 / 2) :
    roundHalfEven y = if f % 2 = 0 then f else f + 1 := by
  have hfloor : Int.floor y = f := by
    rw [Int.floor_eq_iff, h]
    constructor <;> linarith
  have hfrac : y - Int.floor y = 1 / 2 := by rw [hfloor, h]; ring
  rw [roundHalfEven, hfrac, if_neg (lt_irrefl _), if_neg (lt_irrefl _), hfloor]

theorem toDouble_eq_of_round (x : ℚ) (k m : ℤ) (hlo : (2 : ℚ) ^ k ≤ x)
    (hhi : x < (2 : ℚ) ^ (k + 1)) (hround : roundHalfEven (x / 2 ^ (k - 52)) = m) :
    toDouble x = m * 2 ^ (k - 52) := by
  have hpos : 0 < x := lt_of_lt_of_le (by positivity) hlo
  have habs : |x| = x := abs_of_pos hpos
  have hlog : Int.log 2 x = k := by
    have hk1 : k ≤ Int.log 2 x :=
      (Int.zpow_le_iff_le_log (b := 2) (by norm_num) hpos (x := k)).mp (by exact_mod_cast hlo)
    have hk2 : Int.log 2 x < k + 1 :=
      (Int.lt_zpow_iff_log_lt (b := 2) (by norm_num) hpos (x := k + 1)).mp
        (by exact_mod_cast hhi)
    omega
  rw [toDouble, if_neg (ne_of_gt hpos), habs, hlog, hround]

theorem toDouble_eq (x : ℚ) (k m : ℤ) (hlo : (2 : ℚ) ^ k ≤ x) (hhi : x < (2 : ℚ) ^ (k + 1))
    (h1 : (m : ℚ) - 1 / 2 < x / 2 ^ (k - 52)) (h2 : x / 2 ^ (k - 52) < m + 1 / 2) :
    toDouble x = m * 2 ^ (k - 52) := by
  have hpos : 0 < x := lt_of_lt_of_le (by positivity) hlo
  have habs : |x| = x := abs_of_pos hpos
  have hlog : Int.log 2 x = k := by
    have hk1 : k ≤ Int.log 2 x :=
      (Int.zpow_le_iff_le_log (b := 2) (by norm_num) hpos (x := k)).mp (by exact_mod_cast hlo)
    have hk2 : Int.log 2 x < k + 1 :=
      (Int.lt_zpow_iff_log_lt (b := 2) (by norm_num) hpos (x := k + 1)).mp
        (by exact_mod_cast hhi)
    omega
  rw [toDouble, if_neg (ne_of_gt hpos), habs, hlog, roundHalfEven_eq _ m h1 h2]

/-! ## Cart total and order creation -/

/-- C1 (evaluation at the failing input). With a signed-in user and the cart
12.99 x 1, 14.99 x 2, the order `createOrder` appends carries `total` 42.97, the
bare subtotal, whereas subtotal x 1.1, the amount CartPage puts on the Total line
and on the Checkout button, is 47.267; OrdersPage, which divides `order.total`
by 1.1 to recover a subtotal, then shows 42.97 / 1.1 instead of 42.97. -/
theorem createOrder_total_omits_tax :
    (createOrder (stateWith (some sampleUser) exampleCart) sampleClock "1 Main St" "paypal").2.orders.map
        (fun order => order.total) = [4297 / 100] ∧
    getCartTotal (stateWith (some sampleUser) exampleCart) * (11 / 10) = 47267 / 1000 ∧
    CartPage.totalShown (stateWith (some sampleUser) exampleCart) = 47267 / 1000 ∧
    (createOrder (stateWith (some sampleUser) exampleCart) sampleClock "1 Main St" "paypal").2.orders.map
        OrdersPage.subtotalShown = [4297 / 110] ∧
    (4297 / 100 : ℚ) ≠ 47267 / 1000 := by
  have hu : (stateWith (some sampleUser) exampleCart).user = some sampleUser := rfl
  have hc : (stateWith (some sampleUser) exampleCart).cart ≠ [] := by
    simp [stateWith, exampleCart]
  have ht : getCartTotal (stateWith (some sampleUser) exampleCart) = 4297 / 100 := by
    simp [getCartTotal, stateWith, exampleCart, sampleBook]
    norm_num
  have hp : CartPage.cartTotal (stateWith (some sampleUser) exampleCart) = 4297 / 100 := by
    simp [CartPage.cartTotal, stateWith, exampleCart, sampleBook]
    norm_num
  have ho : (stateWith (some sampleUser) exampleCart).orders = [] := rfl
  rw [createOrder_ok _ _ _ _ sampleUser hu hc]
  refine ⟨?_, ?_, ?_, ?_, by norm_num⟩
  · simp only [ho, List.nil_append, List.map_cons, List.map_nil, ht]
  · rw [ht]; norm_num
  · rw [CartPage.totalShown, hp]; norm_num
  · simp only [ho, List.nil_append, List.map_cons, List.map_nil, OrdersPage.subtotalShown, ht]
    norm_num

/-- C2. For every store state, `getCartTotal` is the sum of `price * quantity`
over the cart entries, it is 0 when the cart is empty, and the `cartTotal` that
CartPage computes is the same value. -/
theorem getCartTotal_eq_sum (s : AppState) :
    getCartTotal s = (s.cart.map (fun item => item.book.price * item.quantity)).sum ∧
    getCartTotal { s with cart := [] } = 0 ∧
    CartPage.cartTotal s = getCartTotal s := by
  refine ⟨?_, rfl, rfl⟩
  have h := foldl_add_eq_sum (fun item => item.book.price * item.quantity) s.cart 0
  simpa [getCartTotal] using h

/-- C3. `createOrder` throws exactly when no user is signed in or the cart is
empty; the only error it throws carries the message Invalid order data; and a call that throws
leaves the store (in particular `orders` and `cart`) as it was. -/
theorem createOrder_fails_iff (s : AppState) (clock : Clock) (addr pay : String) :
    ((createOrder s clock addr pay).1 = .error "Invalid order data" ↔
        (s.user = none ∨ s.cart = [])) ∧
    (∀ e, (createOrder s clock addr pay).1 = .error e → e = "Invalid order data") ∧
    (∀ e, (createOrder s clock addr pay).1 = .error e →
        (createOrder s clock addr pay).2 = s) ∧
    (∀ e, (createOrder s clock addr pay).1 = .error e →
        (createOrder s clock addr pay).2.orders = s.orders ∧
        (createOrder s clock addr pay).2.cart = s.cart) := by
  cases hu : s.user with
  | none => simp [createOrder, hu]
  | some u =>
    by_cases hc : s.cart = []
    · simp [createOrder, hu, hc]
    · rw [createOrder_ok s clock addr pay u hu hc]
      simp [hc]

/-- C4. When a user is signed in and the cart is not empty, `createOrder`
succeeds and leaves a store whose `orders` are the previous orders followed by
exactly one new order, whose `items` are the cart as it was before the call
(same entries, same sequence), and whose `cart` is empty. -/
theorem createOrder_snapshots_cart (s : AppState) (clock : Clock) (addr pay : String)
    (hu : s.user ≠ none) (hc : s.cart ≠ []) :
    ∃ order : Order,
      (createOrder s clock addr pay).2.orders = s.orders ++ [order] ∧
      order.items = s.cart ∧
      (createOrder s clock addr pay).2.cart = [] ∧
      (createOrder s clock addr pay).1 = .ok order.id := by
  cases hu2 : s.user with
  | none => exact absurd hu2 hu
  | some u =>
    rw [createOrder_ok s clock addr pay u hu2 hc]
    exact ⟨_, rfl, rfl, rfl, rfl⟩

/-- Witness for C4 at the example cart. -/
theorem createOrder_snapshots_cart_witness :
    ∃ order : Order,
      (createOrder (stateWith (some sampleUser) exampleCart) sampleClock "1 Main St"
          "paypal").2.orders = (stateWith (some sampleUser) exampleCart).orders ++ [order] ∧
      order.items = (stateWith (some sampleUser) exampleCart).cart ∧
      (createOrder (stateWith (some sampleUser) exampleCart) sampleClock "1 Main St"
          "paypal").2.cart = [] ∧
      (createOrder (stateWith (some sampleUser) exampleCart) sampleClock "1 Main St"
          "paypal").1 = .ok order.id :=
  createOrder_snapshots_cart (stateWith (some sampleUser) exampleCart) sampleClock
    "1 Main St" "paypal" (by simp [stateWith]) (by simp [stateWith, exampleCart])

/-! ## Cart mutations -/

/-- C5. When the cart already holds an entry for `book.id`, `addToCart(book)`
keeps the cart length and the sequence of books, adds 1 to the quantity of each
entry whose book id is `book.id`, and leaves every entry with another id as it
was, position by position. -/
theorem addToCart_existing_increments (s : AppState) (book : Book)
    (h : ∃ item ∈ s.cart, item.book.id = book.id) :
    (addToCart s book).cart.length = s.cart.length ∧
    (addToCart s book).cart.map (fun item => item.book) = s.cart.map (fun item => item.book) ∧
    (∀ (i : Nat) (item : CartItem), s.cart[i]? = some item → item.book.id = book.id →
        (addToCart s book).cart[i]? = some { book := item.book, quantity := item.quantity + 1 }) ∧
    (∀ (i : Nat) (item : CartItem), s.cart[i]? = some item → item.book.id ≠ book.id →
        (addToCart s book).cart[i]? = some item) := by
  obtain ⟨found, hfound⟩ := find?_isSome_of_present s.cart book.id h
  have hcart : (addToCart s book).cart = s.cart.map (fun item =>
      if item.book.id = book.id then { item with quantity := item.quantity + 1 } else item) := by
    simp [addToCart, appReducer, hfound]
  rw [hcart]
  refine ⟨by simp, ?_, ?_, ?_⟩
  · rw [List.map_map]
    apply List.map_congr_left
    intro item _
    by_cases hid : item.book.id = book.id <;> simp [hid]
  · intro i item hi hid
    simp [List.getElem?_map, hi, hid]
  · intro i item hi hid
    simp [List.getElem?_map, hi, hid]

/-- Witness for C5: adding the first book of the example cart again. -/
theorem addToCart_existing_increments_witness :
    (addToCart (stateWith none exampleCart) (sampleBook "b1" (1299 / 100))).cart.length =
        (stateWith none exampleCart).cart.length ∧
    (addToCart (stateWith none exampleCart) (sampleBook "b1" (1299 / 100))).cart.map
        (fun item => item.book) = (stateWith none exampleCart).cart.map (fun item => item.book) ∧
    (∀ (i : Nat) (item : CartItem), (stateWith none exampleCart).cart[i]? = some item →
        item.book.id = (sampleBook "b1" (1299 / 100)).id →
        (addToCart (stateWith none exampleCart) (sampleBook "b1" (1299 / 100))).cart[i]? =
          some { book := item.book, quantity := item.quantity + 1 }) ∧
    (∀ (i : Nat) (item : CartItem), (stateWith none exampleCart).cart[i]? = some item →
        item.book.id ≠ (sampleBook "b1" (1299 / 100)).id →
        (addToCart (stateWith none exampleCart) (sampleBook "b1" (1299 / 100))).cart[i]? =
          some item) :=
  addToCart_existing_increments (stateWith none exampleCart) (sampleBook "b1" (1299 / 100))
    ⟨⟨sampleBook "b1" (1299 / 100), 1⟩, by simp [stateWith, exampleCart], rfl⟩

/-- C6. When the cart holds no entry for `book.id`, `addToCart(book)` yields
the old cart followed by the single new entry with that book and quantity 1. -/
theorem addToCart_new_appends (s : AppState) (book : Book)
    (h : ∀ item ∈ s.cart, item.book.id ≠ book.id) :
    (addToCart s book).cart = s.cart ++ [{ book := book, quantity := 1 }] := by
  have hnone := find?_eq_none_of_absent s.cart book.id h
  simp [addToCart, appReducer, hnone]

/-- Witness for C6: adding a third book to the example cart. -/
theorem addToCart_new_appends_witness :
    (addToCart (stateWith none exampleCart) (sampleBook "b3" 5)).cart =
      (stateWith none exampleCart).cart ++ [{ book := sampleBook "b3" 5, quantity := 1 }] :=
  addToCart_new_appends (stateWith none exampleCart) (sampleBook "b3" 5)
    (by simp [stateWith, exampleCart, sampleBook])

/-- C7. For every store, book id and whole-number quantity `q` below 1,
`updateCartQuantity(bookId, q)` leaves the same store, and so the same cart, as
`removeFromCart(bookId)`; the CartPage handler `handleQuantityChange`, the
caller of `updateCartQuantity`, does the same for such a `q`. -/
theorem updateCartQuantity_below_one (s : AppState) (bookId : String) (q : ℤ) (hq : q < 1) :
    (updateCartQuantity s bookId (q : ℚ)).cart = (removeFromCart s bookId).cart ∧
    updateCartQuantity s bookId (q : ℚ) = removeFromCart s bookId ∧
    CartPage.handleQuantityChange s bookId (q : ℚ) = removeFromCart s bookId := by
  have hle : (q : ℚ) ≤ 0 := by
    have hq0 : q ≤ 0 := by omega
    exact_mod_cast hq0
  have hlt : (q : ℚ) < 1 := by exact_mod_cast hq
  have hupd : updateCartQuantity s bookId (q : ℚ) = removeFromCart s bookId := by
    rw [updateCartQuantity, if_pos hle]
  refine ⟨by rw [hupd], hupd, ?_⟩
  rw [CartPage.handleQuantityChange, if_pos hlt]

/-- Witness for C7: setting the quantity of the first example entry to 0. -/
theorem updateCartQuantity_below_one_witness :
    (updateCartQuantity (stateWith none exampleCart) "b1" ((0 : ℤ) : ℚ)).cart =
        (removeFromCart (stateWith none exampleCart) "b1").cart ∧
    updateCartQuantity (stateWith none exampleCart) "b1" ((0 : ℤ) : ℚ) =
        removeFromCart (stateWith none exampleCart) "b1" ∧
    CartPage.handleQuantityChange (stateWith none exampleCart) "b1" ((0 : ℤ) : ℚ) =
        removeFromCart (stateWith none exampleCart) "b1" :=
  updateCartQuantity_below_one (stateWith none exampleCart) "b1" 0 (by decide)

/-- C8. For a quantity `q` of at least 1, `updateCartQuantity(bookId, q)` keeps
the cart length and the sequence of books, gives each entry whose book id is
`bookId` the quantity `q` whatever its quantity was, leaves every entry with
another id as it was, position by position, and returns the cart unchanged when
no entry has that id. -/
theorem updateCartQuantity_sets_quantity (s : AppState) (bookId : String) (q : ℚ)
    (hq : 1 ≤ q) :
    (updateCartQuantity s bookId q).cart.length = s.cart.length ∧
    (updateCartQuantity s bookId q).cart.map (fun item => item.book) =
        s.cart.map (fun item => item.book) ∧
    (∀ (i : Nat) (item : CartItem), s.cart[i]? = some item → item.book.id = bookId →
        (updateCartQuantity s bookId q).cart[i]? = some { book := item.book, quantity := q }) ∧
    (∀ (i : Nat) (item : CartItem), s.cart[i]? = some item → item.book.id ≠ bookId →
        (updateCartQuantity s bookId q).cart[i]? = some item) ∧
    ((∀ item ∈ s.cart, item.book.id ≠ bookId) → (updateCartQuantity s bookId q).cart = s.cart) := by
  have hpos : ¬ (q ≤ 0) := by
    intro hle
    linarith
  have hcart : (updateCartQuantity s bookId q).cart = s.cart.map (fun item =>
      if item.book.id = bookId then { item with quantity := q } else item) := by
    rw [updateCartQuantity, if_neg hpos]
    rfl
  rw [hcart]
  refine ⟨by simp, ?_, ?_, ?_, ?_⟩
  · rw [List.map_map]
    apply List.map_congr_left
    intro item _
    by_cases hid : item.book.id = bookId <;> simp [hid]
  · intro i item hi hid
    simp [List.getElem?_map, hi, hid]
  · intro i item hi hid
    simp [List.getElem?_map, hi, hid]
  · intro habs
    conv_rhs => rw [← List.map_id s.cart]
    apply List.map_congr_left
    intro item hmem
    simp [habs item hmem]

/-- Witness for C8: setting the quantity of the second example entry to 5. -/
theorem updateCartQuantity_sets_quantity_witness :
    (updateCartQuantity (stateWith none exampleCart) "b2" 5).cart.length =
        (stateWith none exampleCart).cart.length ∧
    (updateCartQuantity (stateWith none exampleCart) "b2" 5).cart.map (fun item => item.book) =
        (stateWith none exampleCart).cart.map (fun item => item.book) ∧
    (∀ (i : Nat) (item : CartItem), (stateWith none exampleCart).cart[i]? = some item →
        item.book.id = "b2" →
        (updateCartQuantity (stateWith none exampleCart) "b2" 5).cart[i]? =
          some { book := item.book, quantity := 5 }) ∧
    (∀ (i : Nat) (item : CartItem), (stateWith none exampleCart).cart[i]? = some item →
        item.book.id ≠ "b2" →
        (updateCartQuantity (stateWith none exampleCart) "b2" 5).cart[i]? = some item) ∧
    ((∀ item ∈ (stateWith none exampleCart).cart, item.book.id ≠ "b2") →
        (updateCartQuantity (stateWith none exampleCart) "b2" 5).cart =
          (stateWith none exampleCart).cart) :=
  updateCartQuantity_sets_quantity (stateWith none exampleCart) "b2" 5 (by norm_num)

/-- C9. For every store the application can hold (one reached from the
initial state by dispatching actions) whose cart contains an entry for `id`,
`updateCartQuantity(id, 0)` yields a cart with no entry for `id` whose length
is exactly one less than before, all other entries being kept in their
sequence. -/
theorem updateCartQuantity_zero_removes (s : AppState) (id : String) (hs : Reachable s)
    (h : ∃ item ∈ s.cart, item.book.id = id) :
    (∀ item ∈ (updateCartQuantity s id 0).cart, item.book.id ≠ id) ∧
    (updateCartQuantity s id 0).cart.length + 1 = s.cart.length ∧
    (updateCartQuantity s id 0).cart = s.cart.filter (fun item => decide (item.book.id ≠ id)) ∧
    List.Sublist (updateCartQuantity s id 0).cart s.cart ∧
    (∀ item ∈ s.cart, item.book.id ≠ id → item ∈ (updateCartQuantity s id 0).cart) := by
  have hcart : (updateCartQuantity s id 0).cart =
      s.cart.filter (fun item => decide (item.book.id ≠ id)) := by
    rw [updateCartQuantity, if_pos (le_refl 0)]
    exact filter_bne_eq_filter_ne s.cart id
  have hnd : (s.cart.map (fun item => item.book.id)).Nodup := reachable_cart_ids_nodup s hs
  rw [hcart]
  refine ⟨?_, ?_, rfl, List.filter_sublist s.cart, ?_⟩
  · intro item hmem
    simpa using (List.mem_filter.mp hmem).2
  · obtain ⟨item, hmem, hid⟩ := h
    have hlen := length_filter_ne_add_countP s.cart id
    have hone := countP_id_eq_one s.cart item hnd hmem
    rw [hid] at hone
    rw [hone] at hlen
    exact hlen
  · intro item hmem hid
    exact List.mem_filter.mpr ⟨hmem, by simpa using hid⟩

/-- Witness for C9: dropping the first entry of a cart built by three
`ADD_TO_CART` dispatches. -/
theorem updateCartQuantity_zero_removes_witness :
    (∀ item ∈ (updateCartQuantity reachedState "b1" 0).cart, item.book.id ≠ "b1") ∧
    (updateCartQuantity reachedState "b1" 0).cart.length + 1 = reachedState.cart.length ∧
    (updateCartQuantity reachedState "b1" 0).cart =
        reachedState.cart.filter (fun item => decide (item.book.id ≠ "b1")) ∧
    List.Sublist (updateCartQuantity reachedState "b1" 0).cart reachedState.cart ∧
    (∀ item ∈ reachedState.cart, item.book.id ≠ "b1" →
        item ∈ (updateCartQuantity reachedState "b1" 0).cart) :=
  updateCartQuantity_zero_removes reachedState "b1" ⟨reachedActions, rfl⟩
    ⟨⟨sampleBook "b1" (1299 / 100), 1⟩,
      by simp [reachedState, reachedActions, appReducer, initialState, sampleBook], rfl⟩

/-- C10. For every store and book id, `removeFromCart(bookId)` always returns a
store (it cannot throw) that differs from the old one only in its cart, which
is the old cart with every entry for `bookId` dropped and every other entry
kept in its place in the sequence; when no entry has that id the store is the
one it was. -/
theorem removeFromCart_drops_entry (s : AppState) (bookId : String) :
    removeFromCart s bookId =
        { s with cart := s.cart.filter (fun item => decide (item.book.id ≠ bookId)) } ∧
    (∀ item ∈ (removeFromCart s bookId).cart, item.book.id ≠ bookId) ∧
    (∀ item ∈ s.cart, item.book.id ≠ bookId → item ∈ (removeFromCart s bookId).cart) ∧
    List.Sublist (removeFromCart s bookId).cart s.cart ∧
    ((∀ item ∈ s.cart, item.book.id ≠ bookId) → removeFromCart s bookId = s) := by
  have hst : removeFromCart s bookId =
      { s with cart := s.cart.filter (fun item => decide (item.book.id ≠ bookId)) } := by
    rw [← filter_bne_eq_filter_ne s.cart bookId]
    rfl
  rw [hst]
  refine ⟨rfl, ?_, ?_, List.filter_sublist s.cart, ?_⟩
  · intro item hmem
    simpa using (List.mem_filter.mp hmem).2
  · intro item hmem hid
    exact List.mem_filter.mpr ⟨hmem, by simpa using hid⟩
  · intro habs
    have hf : s.cart.filter (fun item => decide (item.book.id ≠ bookId)) = s.cart := by
      apply List.filter_eq_self.mpr
      intro item hmem
      simpa using habs item hmem
    rw [hf]

/-! ## CartPage summary and item count -/

/-- C11. For every cart with subtotal s (the sum of price x quantity), the tax
CartPage shows is s x 0.1, the total it shows is s x 1.1, and that total is
s plus the tax; for the cart 12.99 x 1, 14.99 x 2 the subtotal is 42.97, the
tax 4.297 and the total 47.267. -/
theorem cartPage_tax_and_total (s : AppState) :
    CartPage.taxShown s =
        (s.cart.map (fun item => item.book.price * item.quantity)).sum * (1 / 10) ∧
    CartPage.totalShown s =
        (s.cart.map (fun item => item.book.price * item.quantity)).sum * (11 / 10) ∧
    CartPage.totalShown s = CartPage.cartTotal s + CartPage.taxShown s ∧
    CartPage.cartTotal (stateWith (some sampleUser) exampleCart) = 4297 / 100 ∧
    CartPage.taxShown (stateWith (some sampleUser) exampleCart) = 4297 / 1000 ∧
    CartPage.totalShown (stateWith (some sampleUser) exampleCart) = 47267 / 1000 := by
  have hsum : CartPage.cartTotal s =
      (s.cart.map (fun item => item.book.price * item.quantity)).sum := by
    have h := foldl_add_eq_sum (fun item => item.book.price * item.quantity) s.cart 0
    simpa [CartPage.cartTotal] using h
  have hex : CartPage.cartTotal (stateWith (some sampleUser) exampleCart) = 4297 / 100 := by
    simp [CartPage.cartTotal, stateWith, exampleCart, sampleBook]
    norm_num
  refine ⟨?_, ?_, ?_, hex, ?_, ?_⟩
  · rw [CartPage.taxShown, hsum]
  · rw [CartPage.totalShown, hsum]
  · rw [CartPage.totalShown, CartPage.taxShown]
    ring
  · rw [CartPage.taxShown, hex]
    norm_num
  · rw [CartPage.totalShown, hex]
    norm_num

/-- C12. For every store state, `getCartItemsCount` is the sum of the
quantities of the cart entries, it is 0 when the cart is empty, and the
`cartItemsCount` that CartPage computes is the same value. -/
theorem getCartItemsCount_eq_sum (s : AppState) :
    getCartItemsCount s = (s.cart.map (fun item => item.quantity)).sum ∧
    getCartItemsCount { s with cart := [] } = 0 ∧
    CartPage.cartItemsCount s = getCartItemsCount s := by
  refine ⟨?_, rfl, rfl⟩
  have h := foldl_add_eq_sum (fun item => item.quantity) s.cart 0
  simpa [getCartItemsCount] using h

/-! ## Server wishlist toggle -/

/-- C13. A wishlist is a set of book ids: no id occurs in it twice. For every
such wishlist and every book id, two toggles of the same id both answer with a
saved user, and the wishlist saved by the second has the same members as the
original: every id is a member afterwards iff it was a member before. -/
theorem toggleWishlist_twice_same_members (u : Server.UserDoc) (bookId : String)
    (h : u.wishlist.Nodup) :
    ∃ u2 : Server.UserDoc,
      (Server.toggleWishlist (Server.toggleWishlist (some u) bookId).2 bookId).2 = some u2 ∧
      u2.id = u.id ∧
      ∀ id, id ∈ u2.wishlist ↔ id ∈ u.wishlist := by
  have hcount : u.wishlist.count bookId ≠ 2 := by
    have hle := List.nodup_iff_count_le_one.mp h bookId
    omega
  exact ⟨{ u with wishlist :=
      Server.toggledWishlist (Server.toggledWishlist u.wishlist bookId) bookId }, rfl, rfl,
    toggledWishlist_twice_mem u.wishlist bookId hcount⟩

/-- Witness for C13: toggling b twice on the wishlist a, b. -/
theorem toggleWishlist_twice_same_members_witness :
    ∃ u2 : Server.UserDoc,
      (Server.toggleWishlist (Server.toggleWishlist (some ⟨"u1", ["a", "b"]⟩) "b").2 "b").2 =
        some u2 ∧
      u2.id = (⟨"u1", ["a", "b"]⟩ : Server.UserDoc).id ∧
      ∀ id, id ∈ u2.wishlist ↔ id ∈ (⟨"u1", ["a", "b"]⟩ : Server.UserDoc).wishlist :=
  toggleWishlist_twice_same_members ⟨"u1", ["a", "b"]⟩ "b" (by simp)

/-- C14. A wishlist is a set of book ids: no id occurs in it twice. For every
such wishlist and every book id, `toggleWishlist` saves a wishlist that does
not contain `bookId` when the original contained it and that contains `bookId`
when the original did not, and every other id is a member afterwards iff it
was a member before. -/
theorem toggleWishlist_membership (u : Server.UserDoc) (bookId : String)
    (h : u.wishlist.Nodup) :
    ∃ u1 : Server.UserDoc,
      (Server.toggleWishlist (some u) bookId).2 = some u1 ∧
      (bookId ∈ u.wishlist → bookId ∉ u1.wishlist) ∧
      (bookId ∉ u.wishlist → bookId ∈ u1.wishlist) ∧
      (∀ id, id ≠ bookId → (id ∈ u1.wishlist ↔ id ∈ u.wishlist)) := by
  refine ⟨{ u with wishlist := Server.toggledWishlist u.wishlist bookId }, rfl, ?_, ?_, ?_⟩
  · intro hin hmem
    have hc : u.wishlist.count bookId = 1 := List.count_eq_one_of_mem h hin
    have hpos := List.count_pos_iff.mpr hmem
    rw [count_toggledWishlist_self, if_pos hin, hc] at hpos
    omega
  · intro hmem
    apply List.count_pos_iff.mp
    show 0 < (Server.toggledWishlist u.wishlist bookId).count bookId
    rw [count_toggledWishlist_self]
    simp [hmem]
  · intro id hid
    show id ∈ Server.toggledWishlist u.wishlist bookId ↔ _
    rw [← List.count_pos_iff, ← List.count_pos_iff, count_toggledWishlist_other _ _ _ hid]

/-- Witness for C14: toggling b on the wishlist a, b. -/
theorem toggleWishlist_membership_witness :
    ∃ u1 : Server.UserDoc,
      (Server.toggleWishlist (some ⟨"u1", ["a", "b"]⟩) "b").2 = some u1 ∧
      ("b" ∈ (⟨"u1", ["a", "b"]⟩ : Server.UserDoc).wishlist → "b" ∉ u1.wishlist) ∧
      ("b" ∉ (⟨"u1", ["a", "b"]⟩ : Server.UserDoc).wishlist → "b" ∈ u1.wishlist) ∧
      (∀ id, id ≠ "b" →
        (id ∈ u1.wishlist ↔ id ∈ (⟨"u1", ["a", "b"]⟩ : Server.UserDoc).wishlist)) :=
  toggleWishlist_membership ⟨"u1", ["a", "b"]⟩ "b" (by simp)

/-! ## Invariants of the client store -/

/-- C15. When every entry of the cart has quantity at least 1, so has every
entry of the cart after `addToCart(book)`, after `removeFromCart(id)`, after
`updateCartQuantity(id, q)` for a whole number `q`, and after `clearCart()`. -/
theorem cart_operations_keep_quantities_positive (s : AppState)
    (h : ∀ item ∈ s.cart, 1 ≤ item.quantity) :
    (∀ book : Book, ∀ item ∈ (addToCart s book).cart, 1 ≤ item.quantity) ∧
    (∀ id : String, ∀ item ∈ (removeFromCart s id).cart, 1 ≤ item.quantity) ∧
    (∀ (id : String) (q : ℤ), ∀ item ∈ (updateCartQuantity s id (q : ℚ)).cart,
        1 ≤ item.quantity) ∧
    (∀ item ∈ (clearCart s).cart, 1 ≤ item.quantity) := by
  have hrem : ∀ id : String, ∀ item ∈ (removeFromCart s id).cart, 1 ≤ item.quantity := by
    intro id item hmem
    have hmem2 : item ∈ s.cart.filter (fun item => item.book.id != id) := hmem
    exact h item (List.mem_filter.mp hmem2).1
  refine ⟨?_, hrem, ?_, ?_⟩
  · intro book item hmem
    cases hf : s.cart.find? (fun item => item.book.id == book.id) with
    | none =>
      have hcart : (addToCart s book).cart = s.cart ++ [{ book := book, quantity := 1 }] := by
        simp [addToCart, appReducer, hf]
      rw [hcart, List.mem_append] at hmem
      rcases hmem with hold | hnew
      · exact h item hold
      · rw [List.mem_singleton] at hnew
        rw [hnew]
    | some found =>
      have hcart : (addToCart s book).cart = s.cart.map (fun item =>
          if item.book.id = book.id then { item with quantity := item.quantity + 1 }
          else item) := by
        simp [addToCart, appReducer, hf]
      rw [hcart, List.mem_map] at hmem
      obtain ⟨old, hold, rfl⟩ := hmem
      have hq := h old hold
      by_cases hid : old.book.id = book.id
      · simp only [hid, if_true]
        linarith
      · simpa [hid] using hq
  · intro id q item hmem
    by_cases hq : (q : ℚ) ≤ 0
    · rw [updateCartQuantity, if_pos hq] at hmem
      exact hrem id item hmem
    · rw [updateCartQuantity, if_neg hq] at hmem
      have hmem2 : item ∈ s.cart.map (fun item =>
          if item.book.id = id then { item with quantity := (q : ℚ) } else item) := hmem
      rw [List.mem_map] at hmem2
      obtain ⟨old, hold, rfl⟩ := hmem2
      have hq1 : (1 : ℚ) ≤ q := by
        have hpos : (0 : ℚ) < q := lt_of_not_ge hq
        have hz : (0 : ℤ) < q := by exact_mod_cast hpos
        have hz1 : (1 : ℤ) ≤ q := by omega
        exact_mod_cast hz1
      by_cases hid : old.book.id = id
      · simpa [hid] using hq1
      · simpa [hid] using h old hold
  · intro item hmem
    have hnil : (clearCart s).cart = [] := rfl
    rw [hnil] at hmem
    exact absurd hmem (List.not_mem_nil item)

/-- Witness for C15 at the example cart. -/
theorem cart_operations_keep_quantities_positive_witness :
    (∀ book : Book, ∀ item ∈ (addToCart (stateWith none exampleCart) book).cart,
        1 ≤ item.quantity) ∧
    (∀ id : String, ∀ item ∈ (removeFromCart (stateWith none exampleCart) id).cart,
        1 ≤ item.quantity) ∧
    (∀ (id : String) (q : ℤ),
        ∀ item ∈ (updateCartQuantity (stateWith none exampleCart) id (q : ℚ)).cart,
        1 ≤ item.quantity) ∧
    (∀ item ∈ (clearCart (stateWith none exampleCart)).cart, 1 ≤ item.quantity) :=
  cart_operations_keep_quantities_positive (stateWith none exampleCart)
    (by simp [stateWith, exampleCart])

/-- C16. For every state and every reducer action other than SET_ORDERS, each
order already in `state.orders` is still at its position afterwards with the
same items and the same total; ADD_TO_CART, REMOVE_FROM_CART,
UPDATE_CART_QUANTITY and CLEAR_CART leave `state.orders` unchanged; and
UPDATE_ORDER_STATUS keeps the number of orders, replaces nothing but the status
field in each order with the given id, and returns every other order as it was. -/
theorem reducer_keeps_orders_frozen (s : AppState) (action : AppAction)
    (h : ∀ payload, action ≠ .SET_ORDERS payload) :
    (∀ (i : Nat) (o : Order), s.orders[i]? = some o →
        ∃ o2 : Order, (appReducer s action).orders[i]? = some o2 ∧
          o2.items = o.items ∧ o2.total = o.total) ∧
    (∀ book, (appReducer s (.ADD_TO_CART book)).orders = s.orders) ∧
    (∀ id, (appReducer s (.REMOVE_FROM_CART id)).orders = s.orders) ∧
    (∀ id q, (appReducer s (.UPDATE_CART_QUANTITY id q)).orders = s.orders) ∧
    (appReducer s .CLEAR_CART).orders = s.orders ∧
    (∀ orderId status,
        (appReducer s (.UPDATE_ORDER_STATUS orderId status)).orders.length = s.orders.length) ∧
    (∀ orderId status (i : Nat) (o : Order), s.orders[i]? = some o →
        (appReducer s (.UPDATE_ORDER_STATUS orderId status)).orders[i]? =
          some (if o.id = orderId then { o with status := status } else o)) := by
  have hadd : ∀ book, (appReducer s (.ADD_TO_CART book)).orders = s.orders := by
    intro book
    simp only [appReducer]
    split <;> rfl
  have hupd : ∀ orderId status (i : Nat) (o : Order), s.orders[i]? = some o →
      (appReducer s (.UPDATE_ORDER_STATUS orderId status)).orders[i]? =
        some (if o.id = orderId then { o with status := status } else o) := by
    intro orderId status i o hi
    simp [appReducer, List.getElem?_map, hi]
  refine ⟨?_, hadd, fun _ => rfl, fun _ _ => rfl, rfl, ?_, hupd⟩
  · intro i o hi
    cases action with
    | SET_ORDERS payload => exact absurd rfl (h payload)
    | ADD_TO_CART book => exact ⟨o, by rw [hadd book]; exact hi, rfl, rfl⟩
    | ADD_ORDER payload =>
      refine ⟨o, ?_, rfl, rfl⟩
      have hlt : i < s.orders.length := by
        by_contra hge
        rw [List.getElem?_eq_none (by omega)] at hi
        cases hi
      show (s.orders ++ [payload])[i]? = some o
      rw [List.getElem?_append_left hlt]
      exact hi
    | UPDATE_ORDER_STATUS orderId status =>
      refine ⟨_, hupd orderId status i o hi, ?_, ?_⟩
      · split <;> rfl
      · split <;> rfl
    | _ => exact ⟨o, hi, rfl, rfl⟩
  · intro orderId status
    simp [appReducer]

/-- Witness for C16: the action CLEAR_CART on a store that holds one order. -/
theorem reducer_keeps_orders_frozen_witness :
    (∀ (i : Nat) (o : Order), stateWithOrder.orders[i]? = some o →
        ∃ o2 : Order, (appReducer stateWithOrder .CLEAR_CART).orders[i]? = some o2 ∧
          o2.items = o.items ∧ o2.total = o.total) ∧
    (∀ book, (appReducer stateWithOrder (.ADD_TO_CART book)).orders = stateWithOrder.orders) ∧
    (∀ id, (appReducer stateWithOrder (.REMOVE_FROM_CART id)).orders = stateWithOrder.orders) ∧
    (∀ id q, (appReducer stateWithOrder (.UPDATE_CART_QUANTITY id q)).orders =
        stateWithOrder.orders) ∧
    (appReducer stateWithOrder .CLEAR_CART).orders = stateWithOrder.orders ∧
    (∀ orderId status,
        (appReducer stateWithOrder (.UPDATE_ORDER_STATUS orderId status)).orders.length =
          stateWithOrder.orders.length) ∧
    (∀ orderId status (i : Nat) (o : Order), stateWithOrder.orders[i]? = some o →
        (appReducer stateWithOrder (.UPDATE_ORDER_STATUS orderId status)).orders[i]? =
          some (if o.id = orderId then { o with status := status } else o)) :=
  reducer_keeps_orders_frozen stateWithOrder .CLEAR_CART (fun _ hne => AppAction.noConfusion hne)

/-! ## The created order and its identifier -/

/-- C17. When a user is signed in and the cart is not empty, the order that
`createOrder` appends has status pending, the id of the signed-in user as
`userId`, and the shipping address and payment method passed to the call, and
the identifier the call returns is the id of that order. -/
theorem createOrder_order_fields (s : AppState) (clock : Clock) (addr pay : String) (u : User)
    (hu : s.user = some u) (hc : s.cart ≠ []) :
    ∃ order : Order,
      (createOrder s clock addr pay).2.orders = s.orders ++ [order] ∧
      order.status = .pending ∧
      order.userId = u.id ∧
      order.shippingAddress = addr ∧
      order.paymentMethod = pay ∧
      (createOrder s clock addr pay).1 = .ok order.id := by
  rw [createOrder_ok s clock addr pay u hu hc]
  exact ⟨_, rfl, rfl, rfl, rfl, rfl, rfl⟩

/-- Witness for C17 at the example cart. -/
theorem createOrder_order_fields_witness :
    ∃ order : Order,
      (createOrder (stateWith (some sampleUser) exampleCart) sampleClock "1 Main St"
          "paypal").2.orders = (stateWith (some sampleUser) exampleCart).orders ++ [order] ∧
      order.status = .pending ∧
      order.userId = sampleUser.id ∧
      order.shippingAddress = "1 Main St" ∧
      order.paymentMethod = "paypal" ∧
      (createOrder (stateWith (some sampleUser) exampleCart) sampleClock "1 Main St"
          "paypal").1 = .ok order.id :=
  createOrder_order_fields (stateWith (some sampleUser) exampleCart) sampleClock
    "1 Main St" "paypal" sampleUser rfl (by simp [stateWith, exampleCart])

/-- C18 (counterexample). After a first order placed at a clock reading, one
more `addToCart` and a second `createOrder` at the same clock reading, the
store already holds an order whose id is the identifier the second call
returns. -/
theorem createOrder_same_clock_same_id :
    afterFirstOrder.user ≠ none ∧ afterFirstOrder.cart ≠ [] ∧
    (createOrder (stateWith (some sampleUser) exampleCart) sampleClock "1 Main St"
        "paypal").1 = (createOrder afterFirstOrder sampleClock "1 Main St" "paypal").1 ∧
    (createOrder afterFirstOrder sampleClock "1 Main St" "paypal").1 =
      .ok "order-1700000000000" ∧
    ∃ o ∈ afterFirstOrder.orders,
      (createOrder afterFirstOrder sampleClock "1 Main St" "paypal").1 = .ok o.id := by
  have hu : (stateWith (some sampleUser) exampleCart).user = some sampleUser := rfl
  have hc : (stateWith (some sampleUser) exampleCart).cart ≠ [] := by
    simp [stateWith, exampleCart]
  have hfirst := createOrder_ok (stateWith (some sampleUser) exampleCart) sampleClock
    "1 Main St" "paypal" sampleUser hu hc
  have hstate : afterFirstOrder =
      { stateWith (some sampleUser) exampleCart with
        orders := (stateWith (some sampleUser) exampleCart).orders ++
          [{ id := "order-" ++ toString sampleClock.now, userId := sampleUser.id,
             userName := sampleUser.name, userEmail := sampleUser.email,
             items := (stateWith (some sampleUser) exampleCart).cart,
             total := getCartTotal (stateWith (some sampleUser) exampleCart),
             status := .pending, orderDate := sampleClock.isoDate,
             shippingAddress := "1 Main St", paymentMethod := "paypal" }]
        cart := [{ book := sampleBook "b3" 5, quantity := 1 }] } := by
    rw [afterFirstOrder, hfirst]
    simp [addToCart, appReducer]
  have hu2 : afterFirstOrder.user = some sampleUser := by rw [hstate]; rfl
  have hc2 : afterFirstOrder.cart ≠ [] := by rw [hstate]; simp
  have hname : "order-" ++ toString sampleClock.now = "order-1700000000000" := by decide
  refine ⟨by rw [hu2]; simp, hc2, ?_, ?_, ?_⟩
  · rw [hfirst, createOrder_ok afterFirstOrder sampleClock "1 Main St" "paypal" sampleUser
      hu2 hc2]
  · rw [createOrder_ok afterFirstOrder sampleClock "1 Main St" "paypal" sampleUser hu2 hc2]
    exact congrArg Except.ok hname
  rw [createOrder_ok afterFirstOrder sampleClock "1 Main St" "paypal" sampleUser hu2 hc2]
  have horders : afterFirstOrder.orders =
      [{ id := "order-" ++ toString sampleClock.now, userId := sampleUser.id,
         userName := sampleUser.name, userEmail := sampleUser.email,
         items := (stateWith (some sampleUser) exampleCart).cart,
         total := getCartTotal (stateWith (some sampleUser) exampleCart),
         status := .pending, orderDate := sampleClock.isoDate,
         shippingAddress := "1 Main St", paymentMethod := "paypal" }] := by
    rw [hstate]
    rfl
  rw [horders]
  exact ⟨_, List.mem_singleton.mpr rfl, rfl⟩

/-- C18 (amended). When a user is signed in and the cart is not empty, the
identifier `createOrder` returns is the text order- followed by the clock
reading in decimal; it differs from the id of every order in `state.orders`
that was named after a different clock reading, and from every order id that
is not that text. -/
theorem createOrder_id_from_clock (s : AppState) (clock : Clock) (addr pay : String)
    (hu : s.user ≠ none) (hc : s.cart ≠ []) :
    (createOrder s clock addr pay).1 = .ok ("order-" ++ toString clock.now) ∧
    (∀ o ∈ s.orders, ∀ t : Nat, o.id = "order-" ++ toString t → t ≠ clock.now →
        (createOrder s clock addr pay).1 ≠ .ok o.id) ∧
    (∀ o ∈ s.orders, o.id ≠ "order-" ++ toString clock.now →
        (createOrder s clock addr pay).1 ≠ .ok o.id) := by
  cases hu2 : s.user with
  | none => exact absurd hu2 hu
  | some u =>
    rw [createOrder_ok s clock addr pay u hu2 hc]
    refine ⟨rfl, ?_, ?_⟩
    · intro o _ t hid ht heq
      have hstr : "order-" ++ toString clock.now = o.id := by
        simpa using heq
      rw [hid] at hstr
      exact ht (orderId_injective clock.now t hstr).symm
    · intro o _ hid heq
      have hstr : "order-" ++ toString clock.now = o.id := by
        simpa using heq
      exact hid hstr.symm

/-- Witness for C18 (amended) at the example cart. -/
theorem createOrder_id_from_clock_witness :
    (createOrder (stateWith (some sampleUser) exampleCart) sampleClock "1 Main St"
        "paypal").1 = .ok ("order-" ++ toString sampleClock.now) ∧
    (∀ o ∈ (stateWith (some sampleUser) exampleCart).orders, ∀ t : Nat,
        o.id = "order-" ++ toString t → t ≠ sampleClock.now →
        (createOrder (stateWith (some sampleUser) exampleCart) sampleClock "1 Main St"
          "paypal").1 ≠ .ok o.id) ∧
    (∀ o ∈ (stateWith (some sampleUser) exampleCart).orders,
        o.id ≠ "order-" ++ toString sampleClock.now →
        (createOrder (stateWith (some sampleUser) exampleCart) sampleClock "1 Main St"
          "paypal").1 ≠ .ok o.id) :=
  createOrder_id_from_clock (stateWith (some sampleUser) exampleCart) sampleClock
    "1 Main St" "paypal" (by simp [stateWith]) (by simp [stateWith, exampleCart])

/-! ## Server order placement -/

/-- C19. The handler `placeOrder` answers 400 with the message Cart is empty
exactly when the user has no cart or the cart has no items (no other case
answers 400), and in that case the Order collection and the cart are as they
were. -/
theorem placeOrder_rejects_iff (store : Server.Store) (userId : String) :
    ((Server.placeOrder store userId).1 = ⟨400, .message "Cart is empty"⟩ ↔
        (store.cart = none ∨ ∃ cart, store.cart = some cart ∧ cart.items = [])) ∧
    ((Server.placeOrder store userId).1.status = 400 ↔
        (store.cart = none ∨ ∃ cart, store.cart = some cart ∧ cart.items = [])) ∧
    ((Server.placeOrder store userId).1.status = 400 →
        (Server.placeOrder store userId).2 = store) := by
  cases hcart : store.cart with
  | none => simp [Server.placeOrder, hcart]
  | some cart =>
    by_cases hitems : cart.items = []
    · simp [Server.placeOrder, hcart, hitems]
    · have hlen : cart.items.length ≠ 0 := by
        intro h0
        exact hitems (List.length_eq_zero.mp h0)
      simp [Server.placeOrder, hcart, hitems]

/-- C20 (evaluation at the failing input). The handler reads the cart without
`populate`, so each `item.book.price` is `undefined` and counts 0: for every
user whose cart has at least one item, `placeOrder` answers 201, appends
exactly one order with the items the cart had, empties the cart document, and
stores 0 as the total. For the cart b1 x 1, b2 x 2 with b1 at 12.99 and b2 at
14.99 the stored total is 0, whereas the sum of price x quantity is 42.97. -/
theorem placeOrder_total_is_zero :
    (∀ (store : Server.Store) (userId : String) (cart : Server.Cart),
        store.cart = some cart → cart.items ≠ [] →
        ∃ order : Server.Order,
          (Server.placeOrder store userId).2.orders = store.orders ++ [order] ∧
          order.items = cart.items ∧
          order.user = userId ∧
          order.total = 0 ∧
          (Server.placeOrder store userId).2.cart =
            some { user := cart.user, items := [] } ∧
          (Server.placeOrder store userId).1 = ⟨201, .order order⟩) ∧
    (Server.placeOrder ⟨some Server.exampleCart, []⟩ "u1").2.orders.map
        (fun order => order.total) = [0] ∧
    Server.specTotal Server.exampleBooks Server.exampleCart.items = 4297 / 100 ∧
    (0 : ℚ) ≠ 4297 / 100 := by
  have hzero : ∀ items : List Server.CartLine,
      items.foldl (fun sum item => sum + item.quantity * (item.book.price.getD 0)) 0 = 0 := by
    intro items
    have h := foldl_add_eq_add_sum
      (fun item : Server.CartLine => item.quantity * (item.book.price.getD 0)) items 0
    rw [h, zero_add]
    apply List.sum_eq_zero
    intro x hx
    obtain ⟨item, _, rfl⟩ := List.mem_map.mp hx
    simp [Server.BookRef.price]
  have hgen : ∀ (store : Server.Store) (userId : String) (cart : Server.Cart),
      store.cart = some cart → cart.items ≠ [] →
      ∃ order : Server.Order,
        (Server.placeOrder store userId).2.orders = store.orders ++ [order] ∧
        order.items = cart.items ∧
        order.user = userId ∧
        order.total = 0 ∧
        (Server.placeOrder store userId).2.cart =
          some { user := cart.user, items := [] } ∧
        (Server.placeOrder store userId).1 = ⟨201, .order order⟩ := by
    intro store userId cart hcart hitems
    have hlen : cart.items.length ≠ 0 := by
      intro h0
      exact hitems (List.length_eq_zero.mp h0)
    refine ⟨{ user := userId, items := cart.items, total := 0, status := .pending },
      ?_, rfl, rfl, rfl, ?_, ?_⟩
    · simp [Server.placeOrder, hcart, hlen, hitems, hzero]
    · simp [Server.placeOrder, hcart, hlen, hitems]
    · simp [Server.placeOrder, hcart, hlen, hitems, hzero]
  refine ⟨hgen, ?_, ?_, by norm_num⟩
  · obtain ⟨order, horders, _, _, htotal, _, _⟩ :=
      hgen ⟨some Server.exampleCart, []⟩ "u1" Server.exampleCart rfl
        (by simp [Server.exampleCart])
    rw [horders]
    simp [htotal]
  · simp [Server.specTotal, Server.exampleBooks, Server.exampleCart]
    norm_num

/-! ## Wishlist, cart and session invariants of the client store -/

/-- C21 (counterexample). On the wishlist a, which has no repeated id, the
action ADD_TO_WISHLIST with a yields the wishlist a, a, in which a is repeated. -/
theorem add_to_wishlist_repeats_id :
    ({ initialState with wishlist := ["a"] } : AppState).wishlist.Nodup ∧
    (appReducer { initialState with wishlist := ["a"] } (.ADD_TO_WISHLIST "a")).wishlist =
      ["a", "a"] ∧
    ¬ (appReducer { initialState with wishlist := ["a"] } (.ADD_TO_WISHLIST "a")).wishlist.Nodup := by
  refine ⟨by simp, rfl, ?_⟩
  simp [appReducer]

/-- C21 (amended). For every wishlist without repeated ids and every book id,
the wishlist after REMOVE_FROM_WISHLIST has no repeated id, and the wishlist
after ADD_TO_WISHLIST has no repeated id exactly when the id was not already
in the wishlist. -/
theorem wishlist_actions_nodup (s : AppState) (h : s.wishlist.Nodup) :
    (∀ id, (appReducer s (.REMOVE_FROM_WISHLIST id)).wishlist.Nodup) ∧
    (∀ id, id ∉ s.wishlist → (appReducer s (.ADD_TO_WISHLIST id)).wishlist.Nodup) ∧
    (∀ id, (appReducer s (.ADD_TO_WISHLIST id)).wishlist.Nodup ↔ id ∉ s.wishlist) := by
  have hadd : ∀ id, (appReducer s (.ADD_TO_WISHLIST id)).wishlist.Nodup ↔ id ∉ s.wishlist := by
    intro id
    show (s.wishlist ++ [id]).Nodup ↔ _
    rw [List.nodup_append]
    constructor
    · intro hnd hmem
      exact hnd.2.2 hmem (List.mem_singleton.mpr rfl)
    · intro hnot
      refine ⟨h, by simp, ?_⟩
      intro x hx hx2
      rw [List.mem_singleton] at hx2
      exact hnot (hx2 ▸ hx)
  refine ⟨?_, fun id hnot => (hadd id).mpr hnot, hadd⟩
  intro id
  exact List.Nodup.sublist (List.filter_sublist s.wishlist) h

/-- Witness for C21 (amended) on the wishlist a, b. -/
theorem wishlist_actions_nodup_witness :
    (∀ id, (appReducer { initialState with wishlist := ["a", "b"] }
        (.REMOVE_FROM_WISHLIST id)).wishlist.Nodup) ∧
    (∀ id, id ∉ ({ initialState with wishlist := ["a", "b"] } : AppState).wishlist →
        (appReducer { initialState with wishlist := ["a", "b"] }
          (.ADD_TO_WISHLIST id)).wishlist.Nodup) ∧
    (∀ id, (appReducer { initialState with wishlist := ["a", "b"] }
        (.ADD_TO_WISHLIST id)).wishlist.Nodup ↔
      id ∉ ({ initialState with wishlist := ["a", "b"] } : AppState).wishlist) :=
  wishlist_actions_nodup { initialState with wishlist := ["a", "b"] } (by simp)

/-- C24. For every state, `clearCart()` yields a state whose cart is empty and
whose user, books, orders, users, wishlist, isLoading and darkMode are those of
the state before. -/
theorem clearCart_only_empties_cart (s : AppState) :
    (clearCart s).cart = [] ∧
    (clearCart s).user = s.user ∧
    (clearCart s).books = s.books ∧
    (clearCart s).orders = s.orders ∧
    (clearCart s).users = s.users ∧
    (clearCart s).wishlist = s.wishlist ∧
    (clearCart s).isLoading = s.isLoading ∧
    (clearCart s).darkMode = s.darkMode :=
  ⟨rfl, rfl, rfl, rfl, rfl, rfl, rfl, rfl⟩

/-- C26. When the book ids of the cart are pairwise distinct, they are again
pairwise distinct after ADD_TO_CART, REMOVE_FROM_CART, UPDATE_CART_QUANTITY and
CLEAR_CART, and indeed after every reducer action; hence the cart reached from
the initial state by any sequence of actions has pairwise distinct book ids. -/
theorem cart_ids_stay_distinct (s : AppState)
    (h : (s.cart.map (fun item => item.book.id)).Nodup) :
    (∀ book, ((appReducer s (.ADD_TO_CART book)).cart.map (fun item => item.book.id)).Nodup) ∧
    (∀ id, ((appReducer s (.REMOVE_FROM_CART id)).cart.map (fun item => item.book.id)).Nodup) ∧
    (∀ id q, ((appReducer s (.UPDATE_CART_QUANTITY id q)).cart.map
        (fun item => item.book.id)).Nodup) ∧
    ((appReducer s .CLEAR_CART).cart.map (fun item => item.book.id)).Nodup ∧
    (∀ action, ((appReducer s action).cart.map (fun item => item.book.id)).Nodup) ∧
    (∀ actions : List AppAction,
        ((actions.foldl appReducer s).cart.map (fun item => item.book.id)).Nodup) ∧
    (∀ actions : List AppAction,
        ((actions.foldl appReducer initialState).cart.map (fun item => item.book.id)).Nodup) := by
  have hall : ∀ (actions : List AppAction) (st : AppState),
      (st.cart.map (fun item => item.book.id)).Nodup →
      ((actions.foldl appReducer st).cart.map (fun item => item.book.id)).Nodup := by
    intro actions
    induction actions with
    | nil => intro st hst; exact hst
    | cons a rest ih =>
      intro st hst
      exact ih (appReducer st a) (appReducer_cart_ids_nodup st a hst)
  exact ⟨fun book => appReducer_cart_ids_nodup s _ h,
    fun id => appReducer_cart_ids_nodup s _ h,
    fun id q => appReducer_cart_ids_nodup s _ h,
    appReducer_cart_ids_nodup s _ h,
    fun action => appReducer_cart_ids_nodup s action h,
    fun actions => hall actions s h,
    fun actions => hall actions initialState List.nodup_nil⟩

/-- Witness for C26 at the example cart. -/
theorem cart_ids_stay_distinct_witness :
    (∀ book, ((appReducer (stateWith none exampleCart) (.ADD_TO_CART book)).cart.map
        (fun item => item.book.id)).Nodup) ∧
    (∀ id, ((appReducer (stateWith none exampleCart) (.REMOVE_FROM_CART id)).cart.map
        (fun item => item.book.id)).Nodup) ∧
    (∀ id q, ((appReducer (stateWith none exampleCart) (.UPDATE_CART_QUANTITY id q)).cart.map
        (fun item => item.book.id)).Nodup) ∧
    ((appReducer (stateWith none exampleCart) .CLEAR_CART).cart.map
        (fun item => item.book.id)).Nodup ∧
    (∀ action, ((appReducer (stateWith none exampleCart) action).cart.map
        (fun item => item.book.id)).Nodup) ∧
    (∀ actions : List AppAction,
        ((actions.foldl appReducer (stateWith none exampleCart)).cart.map
          (fun item => item.book.id)).Nodup) ∧
    (∀ actions : List AppAction,
        ((actions.foldl appReducer initialState).cart.map (fun item => item.book.id)).Nodup) :=
  cart_ids_stay_distinct (stateWith none exampleCart)
    (by simp [stateWith, exampleCart, sampleBook])

/-- C29. For every state, after `logout()` the user is null, the cart is empty
and the orders list is empty, while books, users, wishlist, isLoading and
darkMode are those of the state before. -/
theorem logout_clears_session (s : AppState) :
    (logout s).user = none ∧
    (logout s).cart = [] ∧
    (logout s).orders = [] ∧
    (logout s).books = s.books ∧
    (logout s).users = s.users ∧
    (logout s).wishlist = s.wishlist ∧
    (logout s).isLoading = s.isLoading ∧
    (logout s).darkMode = s.darkMode :=
  ⟨rfl, rfl, rfl, rfl, rfl, rfl, rfl, rfl⟩

/-! ## Restoring the cart and the arithmetic of cart changes -/

/-- C22. When the saved cart has pairwise distinct book ids and quantities of
at least 1, `loadPersistedData`, run on a store whose cart is empty (such as
the initial state), leaves a store whose cart is exactly the saved cart, entry
for entry and in the same sequence; so does the bare replay of its cart
actions. -/
theorem loadPersistedData_restores_cart (s : AppState) (saved : Persisted)
    (cart : List CartItem) (hs : s.cart = []) (hsaved : saved.savedCart = some cart)
    (hnd : (cart.map (fun item => item.book.id)).Nodup)
    (hq : ∀ item ∈ cart, 1 ≤ item.quantity) :
    (loadPersistedData s saved).cart = cart ∧
    (cart.foldl restoreCartItem s).cart = cart ∧
    (cart.foldl restoreCartItem initialState).cart = cart := by
  have hreplay : ∀ st : AppState, st.cart = [] → (cart.foldl restoreCartItem st).cart = cart := by
    intro st hst
    have h := foldl_restoreCartItem_cart cart st (by rw [hst]; exact hnd) hq
    rw [h, hst]
    rfl
  refine ⟨?_, hreplay s hs, hreplay initialState rfl⟩
  have huser : ∀ st : AppState, st.cart = [] →
      (match saved.savedUser with
        | some user => appReducer st (.SET_USER user)
        | none => st).cart = [] := by
    intro st hst
    cases saved.savedUser with
    | none => exact hst
    | some user => exact hst
  have hwish : ∀ st : AppState,
      (match saved.savedWishlist with
        | some wishlist =>
          wishlist.foldl (fun st bookId => appReducer st (.ADD_TO_WISHLIST bookId)) st
        | none => st).cart = st.cart := by
    intro st
    cases saved.savedWishlist with
    | none => rfl
    | some wishlist => exact foldl_add_to_wishlist_cart wishlist st
  have hdark : ∀ st : AppState,
      (match saved.savedDarkMode with
        | some true => appReducer st .TOGGLE_DARK_MODE
        | _ => st).cart = st.cart := by
    intro st
    cases saved.savedDarkMode with
    | none => rfl
    | some flag => cases flag <;> rfl
  simp only [loadPersistedData, hsaved]
  rw [hdark, hwish]
  exact hreplay _ (huser s hs)

/-- Witness for C22: restoring the example cart into the initial state. -/
theorem loadPersistedData_restores_cart_witness :
    (loadPersistedData initialState savedExample).cart = exampleCart ∧
    (exampleCart.foldl restoreCartItem initialState).cart = exampleCart ∧
    (exampleCart.foldl restoreCartItem initialState).cart = exampleCart :=
  loadPersistedData_restores_cart initialState savedExample exampleCart rfl rfl
    (by simp [exampleCart, sampleBook]) (by simp [exampleCart])

/-- C27 (counterexample). In binary64 arithmetic, for the cart 11.99 x 2,
13.50 x 1 and the book at 11.99: the total that `getCartTotal` computes after
`addToCart` is the binary64 value 49.47, whereas the previous total (the value
37.480000000000004) plus the recorded price 11.99 is the next binary64 value,
49.470000000000006. -/
theorem getCartTotalDouble_addToCart_rounding :
    ((stateWith none doubleCart).cart.map (fun item => item.book.id)).Nodup ∧
    (∃ e ∈ (stateWith none doubleCart).cart,
        e.book.id = (sampleBook "b1" (toDouble (1199 / 100))).id ∧
        e.book.price = toDouble (1199 / 100)) ∧
    getCartTotalDouble (stateWith none doubleCart) =
        toDouble (37480000000000004 / 1000000000000000) ∧
    getCartTotalDouble (addToCart (stateWith none doubleCart)
        (sampleBook "b1" (toDouble (1199 / 100)))) = toDouble (4947 / 100) ∧
    toDouble (getCartTotalDouble (stateWith none doubleCart) + toDouble (1199 / 100)) =
        toDouble (49470000000000006 / 1000000000000000) ∧
    toDouble (4947 / 100) = 6962283548938076 / 140737488355328 ∧
    toDouble (49470000000000006 / 1000000000000000) = 6962283548938077 / 140737488355328 ∧
    getCartTotalDouble (addToCart (stateWith none doubleCart)
        (sampleBook "b1" (toDouble (1199 / 100)))) ≠
      toDouble (getCartTotalDouble (stateWith none doubleCart) + toDouble (1199 / 100)) := by
  have hp : toDouble (1199 / 100) = 6749769941521531 / 562949953421312 := by
    rw [toDouble_eq _ 3 6749769941521531 (by norm_num) (by norm_num) (by norm_num)
      (by norm_num)]
    norm_num
  have hq : toDouble (27 / 2) = 27 / 2 := by
    rw [toDouble_eq _ 3 7599824371187712 (by norm_num) (by norm_num) (by norm_num)
      (by norm_num)]
    norm_num
  have hp2 : toDouble (6749769941521531 / 562949953421312 * 2) =
      6749769941521531 / 281474976710656 := by
    rw [toDouble_eq _ 4 6749769941521531 (by norm_num) (by norm_num) (by norm_num)
      (by norm_num)]
    norm_num
  have hp2z : toDouble (0 + 6749769941521531 / 281474976710656) =
      6749769941521531 / 281474976710656 := by
    rw [toDouble_eq _ 4 6749769941521531 (by norm_num) (by norm_num) (by norm_num)
      (by norm_num)]
    norm_num
  have hq1 : toDouble (27 / 2 * 1) = 27 / 2 := by
    rw [toDouble_eq _ 3 7599824371187712 (by norm_num) (by norm_num) (by norm_num)
      (by norm_num)]
    norm_num
  have hbefore : toDouble (6749769941521531 / 281474976710656 + 27 / 2) =
      5274841063557694 / 140737488355328 := by
    have htie := roundHalfEven_tie
      ((6749769941521531 / 281474976710656 + 27 / 2) / 2 ^ ((5 : ℤ) - 52))
      5274841063557693 (by norm_num)
    rw [if_neg (by decide)] at htie
    rw [toDouble_eq_of_round _ 5 (5274841063557693 + 1) (by norm_num) (by norm_num) htie]
    norm_num
  have hp3 : toDouble (6749769941521531 / 562949953421312 * 3) =
      5062327456141148 / 140737488355328 := by
    rw [toDouble_eq _ 5 5062327456141148 (by norm_num) (by norm_num) (by norm_num)
      (by norm_num)]
    norm_num
  have hp3z : toDouble (0 + 5062327456141148 / 140737488355328) =
      5062327456141148 / 140737488355328 := by
    rw [toDouble_eq _ 5 5062327456141148 (by norm_num) (by norm_num) (by norm_num)
      (by norm_num)]
    norm_num
  have hafter : toDouble (5062327456141148 / 140737488355328 + 27 / 2) =
      6962283548938076 / 140737488355328 := by
    rw [toDouble_eq _ 5 6962283548938076 (by norm_num) (by norm_num) (by norm_num)
      (by norm_num)]
    norm_num
  have hrhs : toDouble (5274841063557694 / 140737488355328 +
      6749769941521531 / 562949953421312) = 6962283548938077 / 140737488355328 := by
    rw [toDouble_eq _ 5 6962283548938077 (by norm_num) (by norm_num) (by norm_num)
      (by norm_num)]
    norm_num
  have hprint1 : toDouble (37480000000000004 / 1000000000000000) =
      5274841063557694 / 140737488355328 := by
    rw [toDouble_eq _ 5 5274841063557694 (by norm_num) (by norm_num) (by norm_num)
      (by norm_num)]
    norm_num
  have hprint2 : toDouble (4947 / 100) = 6962283548938076 / 140737488355328 := by
    rw [toDouble_eq _ 5 6962283548938076 (by norm_num) (by norm_num) (by norm_num)
      (by norm_num)]
    norm_num
  have hprint3 : toDouble (49470000000000006 / 1000000000000000) =
      6962283548938077 / 140737488355328 := by
    rw [toDouble_eq _ 5 6962283548938077 (by norm_num) (by norm_num) (by norm_num)
      (by norm_num)]
    norm_num
  have htotal : getCartTotalDouble (stateWith none doubleCart) =
      5274841063557694 / 140737488355328 := by
    simp only [getCartTotalDouble, stateWith, doubleCart, sampleBook, List.foldl]
    rw [hp, hq, hp2, hp2z, hq1, hbefore]
  have hcart : (addToCart (stateWith none doubleCart)
      (sampleBook "b1" (toDouble (1199 / 100)))).cart =
      [⟨sampleBook "b1" (toDouble (1199 / 100)), 3⟩, ⟨sampleBook "b2" (toDouble (27 / 2)), 1⟩] := by
    simp [addToCart, appReducer, stateWith, doubleCart, sampleBook]
    norm_num
  have hnew : getCartTotalDouble (addToCart (stateWith none doubleCart)
      (sampleBook "b1" (toDouble (1199 / 100)))) = 6962283548938076 / 140737488355328 := by
    rw [getCartTotalDouble, hcart]
    simp only [sampleBook, List.foldl]
    rw [hp, hq, hp3, hp3z, hq1, hafter]
  refine ⟨by simp [stateWith, doubleCart, sampleBook], ?_, ?_, ?_, ?_, hprint2, hprint3, ?_⟩
  · exact ⟨⟨sampleBook "b1" (toDouble (1199 / 100)), 2⟩, by simp [stateWith, doubleCart],
      rfl, rfl⟩
  · rw [htotal, hprint1]
  · rw [hnew, hprint2]
  · rw [htotal, hp, hrhs, hprint3]
  · rw [hnew, htotal, hp, hrhs]
    norm_num

/-- C27 (amended). In exact arithmetic, when the book ids of the cart are
pairwise distinct, `addToCart(b)` makes `getCartItemsCount` exactly one more
than before and makes `getCartTotal` the previous total plus the price recorded
in the cart entry for `b.id`, or plus `b.price` when the cart had no entry for
`b.id`. -/
theorem addToCart_count_and_total (s : AppState) (b : Book)
    (hnd : (s.cart.map (fun item => item.book.id)).Nodup) :
    getCartItemsCount (addToCart s b) = getCartItemsCount s + 1 ∧
    (∀ e ∈ s.cart, e.book.id = b.id →
        getCartTotal (addToCart s b) = getCartTotal s + e.book.price) ∧
    ((∀ e ∈ s.cart, e.book.id ≠ b.id) →
        getCartTotal (addToCart s b) = getCartTotal s + b.price) := by
  have htotal : ∀ st : AppState, getCartTotal st =
      (st.cart.map (fun item => item.book.price * item.quantity)).sum := by
    intro st
    have h := foldl_add_eq_sum (fun item => item.book.price * item.quantity) st.cart 0
    simpa [getCartTotal] using h
  have hcount : ∀ st : AppState, getCartItemsCount st =
      (st.cart.map (fun item => (fun _ => (1 : ℚ)) item.book * item.quantity)).sum := by
    intro st
    have h := foldl_add_eq_sum (fun item => item.quantity) st.cart 0
    simpa [getCartItemsCount] using h
  have hnew : (∀ e ∈ s.cart, e.book.id ≠ b.id) →
      (addToCart s b).cart = s.cart ++ [{ book := b, quantity := 1 }] := by
    intro habs
    have hnone := find?_eq_none_of_absent s.cart b.id habs
    simp [addToCart, appReducer, hnone]
  have hold : ∀ e ∈ s.cart, e.book.id = b.id →
      (addToCart s b).cart = s.cart.map (fun item =>
        if item.book.id = b.id then { item with quantity := item.quantity + 1 }
        else item) := by
    intro e hmem hid
    obtain ⟨found, hfound⟩ := find?_isSome_of_present s.cart b.id ⟨e, hmem, hid⟩
    simp [addToCart, appReducer, hfound]
  refine ⟨?_, ?_, ?_⟩
  · by_cases hex : ∃ e ∈ s.cart, e.book.id = b.id
    · obtain ⟨e, hmem, hid⟩ := hex
      rw [hcount, hcount, hold e hmem hid,
        sum_after_increment (fun _ => (1 : ℚ)) b.id s.cart e hnd hmem hid]
    · have habs : ∀ e ∈ s.cart, e.book.id ≠ b.id := by
        intro e hmem hid
        exact hex ⟨e, hmem, hid⟩
      rw [hcount, hcount, hnew habs]
      simp
  · intro e hmem hid
    rw [htotal, htotal, hold e hmem hid,
      sum_after_increment (fun book => book.price) b.id s.cart e hnd hmem hid]
  · intro habs
    rw [htotal, htotal, hnew habs]
    simp

/-- Witness for C27 (amended): adding the first book of the example cart again. -/
theorem addToCart_count_and_total_witness :
    getCartItemsCount (addToCart (stateWith none exampleCart) (sampleBook "b1" (1299 / 100))) =
        getCartItemsCount (stateWith none exampleCart) + 1 ∧
    (∀ e ∈ (stateWith none exampleCart).cart, e.book.id = (sampleBook "b1" (1299 / 100)).id →
        getCartTotal (addToCart (stateWith none exampleCart) (sampleBook "b1" (1299 / 100))) =
          getCartTotal (stateWith none exampleCart) + e.book.price) ∧
    ((∀ e ∈ (stateWith none exampleCart).cart, e.book.id ≠ (sampleBook "b1" (1299 / 100)).id) →
        getCartTotal (addToCart (stateWith none exampleCart) (sampleBook "b1" (1299 / 100))) =
          getCartTotal (stateWith none exampleCart) + (sampleBook "b1" (1299 / 100)).price) :=
  addToCart_count_and_total (stateWith none exampleCart) (sampleBook "b1" (1299 / 100))
    (by simp [stateWith, exampleCart, sampleBook])

/-- C28. When the book ids of the cart are pairwise distinct and an entry has
id `id` and quantity q of at least 1, `handleQuantityChange(id, q + 1)`
followed by `handleQuantityChange(id, q)` gives back the store as it was; and
when q is 1, `handleQuantityChange(id, q - 1)` removes the entry: the cart is
one entry shorter, holds no entry for `id`, and keeps the other entries. -/
theorem handleQuantityChange_plus_minus (s : AppState) (item : CartItem)
    (hnd : (s.cart.map (fun x => x.book.id)).Nodup) (hmem : item ∈ s.cart)
    (hq : 1 ≤ item.quantity) :
    CartPage.handleQuantityChange
        (CartPage.handleQuantityChange s item.book.id (item.quantity + 1))
        item.book.id item.quantity = s ∧
    (item.quantity = 1 →
        (CartPage.handleQuantityChange s item.book.id (item.quantity - 1)).cart =
          s.cart.filter (fun x => decide (x.book.id ≠ item.book.id)) ∧
        (CartPage.handleQuantityChange s item.book.id (item.quantity - 1)).cart.length + 1 =
          s.cart.length ∧
        ∀ x ∈ (CartPage.handleQuantityChange s item.book.id (item.quantity - 1)).cart,
          x.book.id ≠ item.book.id) := by
  constructor
  · have h1 : ¬ (item.quantity + 1 < 1) := by linarith
    have h2 : ¬ (item.quantity + 1 ≤ 0) := by linarith
    have h3 : ¬ (item.quantity < 1) := by linarith
    have h4 : ¬ (item.quantity ≤ 0) := by linarith
    have hup : CartPage.handleQuantityChange s item.book.id (item.quantity + 1) =
        appReducer s (.UPDATE_CART_QUANTITY item.book.id (item.quantity + 1)) := by
      rw [CartPage.handleQuantityChange, if_neg h1, updateCartQuantity, if_neg h2]
    rw [hup, CartPage.handleQuantityChange, if_neg h3, updateCartQuantity, if_neg h4]
    have hcart : (s.cart.map (fun x =>
        if x.book.id = item.book.id then { x with quantity := item.quantity + 1 } else x)).map
        (fun x => if x.book.id = item.book.id then { x with quantity := item.quantity } else x) =
        s.cart := by
      rw [List.map_map]
      conv_rhs => rw [← List.map_id s.cart]
      apply List.map_congr_left
      intro x hx
      by_cases hid : x.book.id = item.book.id
      · have hxe : x = item := List.inj_on_of_nodup_map hnd hx hmem hid
        simp [hxe]
      · simp [hid]
    simp only [appReducer]
    rw [hcart]
  · intro hone
    have hlt : item.quantity - 1 < 1 := by rw [hone]; norm_num
    have hcart : (CartPage.handleQuantityChange s item.book.id (item.quantity - 1)).cart =
        s.cart.filter (fun x => decide (x.book.id ≠ item.book.id)) := by
      rw [CartPage.handleQuantityChange, if_pos hlt]
      exact filter_bne_eq_filter_ne s.cart item.book.id
    rw [hcart]
    refine ⟨rfl, ?_, ?_⟩
    · have hlen := length_filter_ne_add_countP s.cart item.book.id
      rw [countP_id_eq_one s.cart item hnd hmem] at hlen
      exact hlen
    · intro x hx
      simpa using (List.mem_filter.mp hx).2

/-- Witness for C28: the plus and minus buttons on a cart with a single copy
of one book. -/
theorem handleQuantityChange_plus_minus_witness :
    CartPage.handleQuantityChange
        (CartPage.handleQuantityChange (stateWith none singleCart)
          (⟨sampleBook "b1" 10, 1⟩ : CartItem).book.id
          ((⟨sampleBook "b1" 10, 1⟩ : CartItem).quantity + 1))
        (⟨sampleBook "b1" 10, 1⟩ : CartItem).book.id
        (⟨sampleBook "b1" 10, 1⟩ : CartItem).quantity = stateWith none singleCart ∧
    ((⟨sampleBook "b1" 10, 1⟩ : CartItem).quantity = 1 →
        (CartPage.handleQuantityChange (stateWith none singleCart)
          (⟨sampleBook "b1" 10, 1⟩ : CartItem).book.id
          ((⟨sampleBook "b1" 10, 1⟩ : CartItem).quantity - 1)).cart =
          (stateWith none singleCart).cart.filter
            (fun x => decide (x.book.id ≠ (⟨sampleBook "b1" 10, 1⟩ : CartItem).book.id)) ∧
        (CartPage.handleQuantityChange (stateWith none singleCart)
          (⟨sampleBook "b1" 10, 1⟩ : CartItem).book.id
          ((⟨sampleBook "b1" 10, 1⟩ : CartItem).quantity - 1)).cart.length + 1 =
          (stateWith none singleCart).cart.length ∧
        ∀ x ∈ (CartPage.handleQuantityChange (stateWith none singleCart)
          (⟨sampleBook "b1" 10, 1⟩ : CartItem).book.id
          ((⟨sampleBook "b1" 10, 1⟩ : CartItem).quantity - 1)).cart,
          x.book.id ≠ (⟨sampleBook "b1" 10, 1⟩ : CartItem).book.id) :=
  handleQuantityChange_plus_minus (stateWith none singleCart) ⟨sampleBook "b1" 10, 1⟩
    (by simp [stateWith, singleCart]) (by simp [stateWith, singleCart]) (le_refl 1)

/-! ## Server cart additions and the duplicate-free wishlist -/

/-- C23 (counterexample). On a stored cart whose only item has quantity 1, the
request with the same book id and quantity -1 makes the server save that item
with quantity 0; and the request for another book with quantity 0 makes it
save a new item with quantity 0. -/
theorem server_addToCart_stores_zero :
    (∀ item ∈ Server.singleCart.items, 1 ≤ item.quantity) ∧
    (Server.addToCart (some Server.singleCart) "u1" "b1" (-1)).2 =
      .save { user := "u1", items := [⟨⟨"b1"⟩, 0⟩] } ∧
    (Server.addToCart (some Server.singleCart) "u1" "b2" 0).2 =
      .save { user := "u1", items := [⟨⟨"b1"⟩, 1⟩, ⟨⟨"b2"⟩, 0⟩] } ∧
    ¬ (∀ item ∈ ([⟨⟨"b1"⟩, 0⟩] : List Server.CartLine), 1 ≤ item.quantity) := by
  refine ⟨by simp [Server.singleCart], ?_, ?_, by simp⟩
  · simp [Server.addToCart, Server.singleCart, addedItems_cons]
  · simp [Server.addToCart, Server.singleCart, addedItems_cons, addedItems_nil]

/-- C23 (amended). For every stored cart whose items all have quantity at
least 1 (or no stored cart) and every request whose quantity is at least 1,
every item of the cart the server creates or saves has quantity at least 1;
the same holds for a request quantity of at least 0 when the stored cart
already has an item for the requested book. -/
theorem server_addToCart_keeps_positive (found : Option Server.Cart)
    (userId bookId : String) (quantity : ℚ)
    (h : ∀ cart, found = some cart → ∀ item ∈ cart.items, 1 ≤ item.quantity) :
    (1 ≤ quantity →
        ∀ cart, ((Server.addToCart found userId bookId quantity).2 = .create cart ∨
            (Server.addToCart found userId bookId quantity).2 = .save cart) →
          ∀ item ∈ cart.items, 1 ≤ item.quantity) ∧
    (0 ≤ quantity →
        ∀ stored, found = some stored → (∃ item ∈ stored.items, item.book.id = bookId) →
          ∀ cart, (Server.addToCart found userId bookId quantity).2 = .save cart →
            ∀ item ∈ cart.items, 1 ≤ item.quantity) := by
  constructor
  · intro hq cart hwrite
    cases hf : found with
    | none =>
      rw [hf] at hwrite
      simp only [Server.addToCart] at hwrite
      rcases hwrite with h1 | h1
      · have hcart := Server.CartWrite.create.inj h1
        intro item hmem
        rw [← hcart] at hmem
        simp only [List.mem_singleton] at hmem
        rw [hmem]
        exact hq
      · cases h1
    | some stored =>
      rw [hf] at hwrite
      simp only [Server.addToCart] at hwrite
      rcases hwrite with h1 | h1
      · cases h1
      · have hcart := Server.CartWrite.save.inj h1
        intro item hmem
        rw [← hcart] at hmem
        exact addedItems_quantities stored.items bookId quantity (h stored hf) (Or.inl hq)
          item hmem
  · intro hq stored hf hex cart hwrite
    rw [hf] at hwrite
    simp only [Server.addToCart] at hwrite
    have hcart := Server.CartWrite.save.inj hwrite
    intro item hmem
    rw [← hcart] at hmem
    exact addedItems_quantities stored.items bookId quantity (h stored hf) (Or.inr ⟨hq, hex⟩)
      item hmem

/-- Witness for C23 (amended): two more copies of b1 for the single-item cart. -/
theorem server_addToCart_keeps_positive_witness :
    (1 ≤ (2 : ℚ) →
        ∀ cart, ((Server.addToCart (some Server.singleCart) "u1" "b1" 2).2 = .create cart ∨
            (Server.addToCart (some Server.singleCart) "u1" "b1" 2).2 = .save cart) →
          ∀ item ∈ cart.items, 1 ≤ item.quantity) ∧
    (0 ≤ (2 : ℚ) →
        ∀ stored, some Server.singleCart = some stored →
          (∃ item ∈ stored.items, item.book.id = "b1") →
          ∀ cart, (Server.addToCart (some Server.singleCart) "u1" "b1" 2).2 = .save cart →
            ∀ item ∈ cart.items, 1 ≤ item.quantity) :=
  server_addToCart_keeps_positive (some Server.singleCart) "u1" "b1" 2
    (by
      intro cart hcart item hmem
      have hc : Server.singleCart = cart := Option.some.inj hcart
      rw [← hc] at hmem
      simp only [Server.singleCart, List.mem_singleton] at hmem
      rw [hmem])

/-- C25. The handler `addToCart` creates a cart exactly when the user has
none, and the created cart holds the single item for `bookId` with the
requested quantity. When a cart is found it is that cart which is saved, with
the same owner: if it has an item for `bookId`, the first such item gets its
quantity increased by the requested quantity, the items before and after it
are as they were and no item is added; otherwise the item for `bookId` with
the requested quantity is appended after the existing items, which are as they
were. The response carries the cart that was written. -/
theorem server_addToCart_effect (found : Option Server.Cart) (userId bookId : String)
    (quantity : ℚ) :
    (found = none →
        Server.addToCart found userId bookId quantity =
          (⟨200, .cart { user := userId, items := [⟨⟨bookId⟩, quantity⟩] }⟩,
            .create { user := userId, items := [⟨⟨bookId⟩, quantity⟩] })) ∧
    ((∃ cart, (Server.addToCart found userId bookId quantity).2 = .create cart) ↔
        found = none) ∧
    (∀ stored, found = some stored →
        ∃ saved : Server.Cart,
          Server.addToCart found userId bookId quantity = (⟨200, .cart saved⟩, .save saved) ∧
          saved.user = stored.user ∧
          ((∀ item ∈ stored.items, item.book.id ≠ bookId) →
            saved.items = stored.items ++ [⟨⟨bookId⟩, quantity⟩]) ∧
          ((∃ item ∈ stored.items, item.book.id = bookId) →
            saved.items.length = stored.items.length) ∧
          (∀ (front : List Server.CartLine) (item : Server.CartLine)
              (back : List Server.CartLine),
            stored.items = front ++ item :: back → (∀ x ∈ front, x.book.id ≠ bookId) →
            item.book.id = bookId →
            saved.items =
              front ++ { book := item.book, quantity := item.quantity + quantity } :: back)) := by
  refine ⟨?_, ?_, ?_⟩
  · intro hf
    rw [hf]
    rfl
  · cases hf : found with
    | none => simp [Server.addToCart]
    | some stored => simp [Server.addToCart]
  · intro stored hf
    refine ⟨{ stored with items := Server.addedItems stored.items bookId quantity }, ?_, rfl,
      ?_, ?_, ?_⟩
    · rw [hf]
      rfl
    · intro habs
      have h := addedItems_append_of_absent stored.items [] bookId quantity habs
      rw [List.append_nil, addedItems_nil] at h
      exact h
    · intro hex
      exact addedItems_length_of_present stored.items bookId quantity hex
    · intro front item back hitems hfront hid
      show Server.addedItems stored.items bookId quantity = _
      rw [hitems, addedItems_append_of_absent front (item :: back) bookId quantity hfront,
        addedItems_cons, if_pos hid]

/-- C30. For every wishlist with no repeated id and every book id, the
wishlist that `toggleWishlist` saves has no repeated id; when the id was in the
wishlist the saved wishlist is one shorter and is the original with one element
left out, the others in their sequence; when it was not, the saved wishlist is
the original followed by the id, so one longer. -/
theorem toggleWishlist_keeps_nodup (u : Server.UserDoc) (bookId : String)
    (h : u.wishlist.Nodup) :
    ∃ u1 : Server.UserDoc,
      (Server.toggleWishlist (some u) bookId).2 = some u1 ∧
      u1.wishlist.Nodup ∧
      (u1.wishlist.length = u.wishlist.length + 1 ∨
        u1.wishlist.length + 1 = u.wishlist.length) ∧
      (bookId ∈ u.wishlist →
        u1.wishlist.length + 1 = u.wishlist.length ∧ u1.wishlist.Sublist u.wishlist ∧
          u1.wishlist = u.wishlist.filter (fun id => decide (id ≠ bookId))) ∧
      (bookId ∉ u.wishlist →
        u1.wishlist = u.wishlist ++ [bookId] ∧
          u1.wishlist.length = u.wishlist.length + 1) := by
  refine ⟨{ u with wishlist := Server.toggledWishlist u.wishlist bookId }, rfl, ?_, ?_, ?_, ?_⟩
  · show (Server.toggledWishlist u.wishlist bookId).Nodup
    by_cases hmem : bookId ∈ u.wishlist
    · exact List.Nodup.sublist (toggledWishlist_of_present u.wishlist bookId hmem).1 h
    · rw [toggledWishlist_of_absent u.wishlist bookId hmem, List.nodup_append]
      refine ⟨h, by simp, ?_⟩
      intro x hx hx2
      rw [List.mem_singleton] at hx2
      exact hmem (hx2 ▸ hx)
  · show (Server.toggledWishlist u.wishlist bookId).length = _ ∨ _
    by_cases hmem : bookId ∈ u.wishlist
    · exact Or.inr (toggledWishlist_of_present u.wishlist bookId hmem).2
    · rw [toggledWishlist_of_absent u.wishlist bookId hmem]
      exact Or.inl (by simp)
  · intro hmem
    obtain ⟨hsub, hlen⟩ := toggledWishlist_of_present u.wishlist bookId hmem
    refine ⟨hlen, hsub, ?_⟩
    show Server.toggledWishlist u.wishlist bookId = _
    exact toggledWishlist_eq_filter u.wishlist bookId h hmem
  · intro hmem
    show Server.toggledWishlist u.wishlist bookId = _ ∧ _
    rw [toggledWishlist_of_absent u.wishlist bookId hmem]
    exact ⟨rfl, by simp⟩

/-- Witness for C30: toggling b on the wishlist a, b. -/
theorem toggleWishlist_keeps_nodup_witness :
    ∃ u1 : Server.UserDoc,
      (Server.toggleWishlist (some ⟨"u1", ["a", "b"]⟩) "b").2 = some u1 ∧
      u1.wishlist.Nodup ∧
      (u1.wishlist.length = (⟨"u1", ["a", "b"]⟩ : Server.UserDoc).wishlist.length + 1 ∨
        u1.wishlist.length + 1 = (⟨"u1", ["a", "b"]⟩ : Server.UserDoc).wishlist.length) ∧
      ("b" ∈ (⟨"u1", ["a", "b"]⟩ : Server.UserDoc).wishlist →
        u1.wishlist.length + 1 = (⟨"u1", ["a", "b"]⟩ : Server.UserDoc).wishlist.length ∧
          u1.wishlist.Sublist (⟨"u1", ["a", "b"]⟩ : Server.UserDoc).wishlist ∧
          u1.wishlist = (⟨"u1", ["a", "b"]⟩ : Server.UserDoc).wishlist.filter
            (fun id => decide (id ≠ "b"))) ∧
      ("b" ∉ (⟨"u1", ["a", "b"]⟩ : Server.UserDoc).wishlist →
        u1.wishlist = (⟨"u1", ["a", "b"]⟩ : Server.UserDoc).wishlist ++ ["b"] ∧
          u1.wishlist.length = (⟨"u1", ["a", "b"]⟩ : Server.UserDoc).wishlist.length + 1) :=
  toggleWishlist_keeps_nodup ⟨"u1", ["a", "b"]⟩ "b" (by simp)

end BookNest
